import Mathlib

/-!
Verification development for the MeerGuard data-reduction pipeline
controller (`reduce_data.py`).

The relational state of the pipeline (tables `files`, `obs`, `caldbs`,
`logs`) is embedded as lists of records, and each database-mutating
operation of the controller is embedded as a pure function from `Store`
to `Store`.  External collaborators (the stage transformation tools,
the filesystem, the wall clock) are passed in as explicit arguments:
the outcome of a stage transform is an `Except` argument, and the
current time is a `Nat` (for `datetime.now`) or a `ℚ` (for the
modified-Julian-date clock `rs.utils.mjdnow`).

Floating-point MJD values are idealised as rationals (`ℚ`); machine
timestamps (`added`, `last_modified`) as naturals.  SQL NULL columns
are `Option` fields; SQL three-valued comparisons are translated at
each use site (noted there).
-/

deriving instance DecidableEq for Except

namespace MeerGuard

/-- One row of the `files` table (see the columns read and written by
`reduce_data.py`: file_id, obs_id, status, stage, qcpassed, filepath,
filename, md5sum, filesize, note, parent_file_id, cal_file_id, added,
last_modified). -/
structure FileRow where
  file_id : Nat
  obs_id : Nat
  status : String
  stage : String
  qcpassed : Option Bool
  filepath : String
  filename : String
  md5sum : String
  filesize : Nat
  note : Option String
  parent_file_id : Option Nat
  cal_file_id : Option Nat
  added : Nat
  last_modified : Nat
  deriving DecidableEq, Repr

/-- One row of the `obs` table. `rcvr` is nullable until header
correction fills it in. `start_mjd` is the float MJD, idealised as ℚ. -/
structure ObsRow where
  obs_id : Nat
  dir_id : Nat
  sourcename : String
  start_mjd : ℚ
  obstype : String
  rcvr : Option String
  last_modified : Nat
  deriving DecidableEq, Repr

/-- One row of the `caldbs` (calibration database) table. -/
structure CaldbRow where
  caldb_id : Nat
  sourcename : String
  caldbpath : String
  caldbname : String
  numentries : Nat
  status : String
  note : Option String
  last_modified : Nat
  deriving DecidableEq, Repr

/-- One row of the `logs` table. -/
structure LogRow where
  log_id : Nat
  obs_id : Nat
  logpath : String
  logname : String
  deriving DecidableEq, Repr

/-- The Entity Store: the tables touched by the scheduler and the
stage workers. -/
structure Store where
  obs : List ObsRow
  files : List FileRow
  caldbs : List CaldbRow
  logs : List LogRow
  deriving DecidableEq, Repr

/-- A row of the join `files ⟗ obs` as selected by `get_todo`,
`get_toload`, `get_files`:  all `files` columns plus `dir_id`,
`sourcename`, `obstype`, `start_mjd` from `obs`.  The `obs`-side
columns are `Option`s because the join is a LEFT OUTER JOIN. -/
structure JoinedRow where
  file : FileRow
  dir_id : Option Nat
  sourcename : Option String
  obstype : Option String
  start_mjd : Option ℚ
  deriving DecidableEq, Repr

/-- `TWOHRS_IN_DAYS = 2.0/24.0` from the source, given by its reduced
numerator and denominator so that it evaluates inside the kernel
(rational normalisation does not); `TWOHRS_IN_DAYS_eq` below checks it
against the source's expression. -/
def TWOHRS_IN_DAYS : ℚ := ⟨1, 12, by norm_num, Nat.coprime_one_left 12⟩

/-- `a - c ≤ b` on rationals, computed on numerators and denominators
(so that it reduces in the kernel); `ratSubLe_iff` proves it equal to
the rational comparison. -/
def ratSubLe (a c b : ℚ) : Bool :=
  decide ((a.num * (c.den : ℤ) - c.num * (a.den : ℤ)) * (b.den : ℤ) ≤
    b.num * ((a.den : ℤ) * (c.den : ℤ)))

/-- `a ≤ b + c` on rationals, computed on numerators and denominators;
`ratLeAdd_iff` proves it equal to the rational comparison. -/
def ratLeAdd (a b c : ℚ) : Bool :=
  decide (a.num * ((b.den : ℤ) * (c.den : ℤ)) ≤
    (b.num * (c.den : ℤ) + c.num * (b.den : ℤ)) * (a.den : ℤ))

/-- `a - c < b` on rationals, computed on numerators and denominators;
`ratSubLt_iff` proves it equal to the rational comparison. -/
def ratSubLt (a c b : ℚ) : Bool :=
  decide ((a.num * (c.den : ℤ) - c.num * (a.den : ℤ)) * (b.den : ℤ) <
    b.num * ((a.den : ℤ) * (c.den : ℤ)))

/-- The canonicalisation applied to source names throughout the
source: `name = utils.get_prefname(sourcename); if name.endswith('_R'):
name = name[:-2]`.  `utils.get_prefname` lives outside the reviewed
source (module `utils`) and maps a source alias to its preferred name;
it is modelled as the identity, so only the `'_R'` suffix strip
remains.  (Implemented on the character list because `String.endsWith`
does not reduce in the kernel.) -/
def canonName (s : String) : String :=
  match s.data.reverse with
  | 'R' :: '_' :: _ => String.mk (s.data.take (s.data.length - 2))
  | _ => s

/-- The `obs` rows matching a file row's `obs_id` (the ON clause of
every `files ⟗ obs` join in the source). -/
def obsMatches (s : Store) (f : FileRow) : List ObsRow :=
  s.obs.filter (fun o => o.obs_id == f.obs_id)

/-- Helper building the joined row for a (file, obs) pair. -/
def mkJoined (f : FileRow) (o : ObsRow) : JoinedRow :=
  ⟨f, some o.dir_id, some o.sourcename, some o.obstype, some o.start_mjd⟩

/-- LEFT OUTER JOIN contribution of one file row: its pairings with
every matching obs row, or a single row with NULL obs columns when no
obs row matches. -/
def joinFile (s : Store) (f : FileRow) : List JoinedRow :=
  match obsMatches s f with
  | [] => [⟨f, none, none, none, none⟩]
  | o :: os => (o :: os).map (mkJoined f)

/-- The relation `files ⟗ obs` (`db.files.outerjoin(db.obs,
onclause=db.files.c.obs_id == db.obs.c.obs_id)`), used by `get_todo`,
`get_toload`, `can_calibrate`, `update_caldb` and
`reattempt_calibration`. -/
def joinRows (s : Store) : List JoinedRow :=
  s.files.flatMap (joinFile s)

/-- SQL LIKE matching, on fuel for structural recursion (fuel
`|pattern| + |string| + 1` always suffices: every recursive call
strictly decreases the summed length).  `'%'` matches any sequence,
`'_'` any single character, anything else itself. -/
def likeFuel : Nat → List Char → List Char → Bool
  | 0, _, _ => false
  | _ + 1, [], s => s.isEmpty
  | n + 1, c :: ps, s =>
    if c = '%' then
      likeFuel n ps s ||
        (match s with
         | [] => false
         | _ :: s2 => likeFuel n ('%' :: ps) s2)
    else
      match s with
      | [] => false
      | c2 :: s2 => if c = '_' then likeFuel n ps s2 else (c = c2 && likeFuel n ps s2)

/-- SQL LIKE: the semantics of the `sourcename.like(pattern)` filters
built by `get_todo`. -/
def likeMatch (pattern s : String) : Bool :=
  likeFuel (pattern.data.length + s.data.length + 1) pattern.data s.data

/-- Glob-style (fnmatch) matching, on fuel like `likeFuel`: `'*'`
matches any sequence, `'?'` any single character, anything else itself
(character classes are not needed here).  Modelled from the spec: the
spec describes the priority patterns as "glob-style"; this definition
follows the spec's words and exists to be compared with the LIKE
matching the source actually performs. -/
def globFuel : Nat → List Char → List Char → Bool
  | 0, _, _ => false
  | _ + 1, [], s => s.isEmpty
  | n + 1, c :: ps, s =>
    if c = '*' then
      globFuel n ps s ||
        (match s with
         | [] => false
         | _ :: s2 => globFuel n ('*' :: ps) s2)
    else
      match s with
      | [] => false
      | c2 :: s2 => if c = '?' then globFuel n ps s2 else (c = c2 && globFuel n ps s2)

/-- Glob-style matching of a whole string, per the spec's words. -/
def globMatchSpec (pattern s : String) : Bool :=
  globFuel (pattern.data.length + s.data.length + 1) pattern.data s.data

/-- The ACTIONS table: action name ↦ (target stages, passed quality
control, with calibrator database lock).  The worker function itself
is kept out of the tuple (it is dispatched by name where needed).
`none` for an unrecognised action (`get_todo` / `launch_task` raise
`UnrecognizedValueError`). -/
def ACTIONS (action : String) : Option (Option (List String) × Bool × Bool) :=
  match action with
  | "combine" => some (some ["grouped"], false, false)
  | "correct" => some (some ["combined"], false, false)
  | "clean" => some (some ["corrected"], false, false)
  | "calibrate" => some (some ["cleaned"], true, true)
  | "load" => some (some [], true, false)
  | _ => none

/-- The WHERE clause `get_todo` builds: `status=='new'`, conjoined
with `stage.in_(target_stages)` when the action has a stage list, with
`qcpassed==True` when the action is quality-gated, and with the
disjunction of `sourcename.like(p)` over the priority patterns when
priorities are given (SQL LIKE against the joined `obs.sourcename`;
NULL never matches).  (The source builds that disjunction as
`like(priorities[0]) | like(priorities[1]) | ...`, which for the
nonempty lists the CLI can produce equals the `any` below.) -/
def todoClause (tstages : Option (List String)) (qconly : Bool)
    (priorities : Option (List String)) (r : JoinedRow) : Bool :=
  r.file.status == "new"
    && (match tstages with
        | none => true
        | some ts => ts.contains r.file.stage)
    && (!qconly || r.file.qcpassed == some true)
    && (match priorities with
        | none => true
        | some ps =>
          match r.sourcename with
          | none => false
          | some n => ps.any (fun p => likeMatch p n))

/-- `get_todo(db, action, priorities)`: the Work Selector.  A pure
query: it returns the joined rows satisfying the WHERE clause and does
not write to the store.  `.error` models the `UnrecognizedValueError`
raised for an unknown action. -/
def get_todo (s : Store) (action : String) (priorities : Option (List String)) :
    Except String (List JoinedRow) :=
  match ACTIONS action with
  | none => Except.error "UnrecognizedValueError"
  | some (tstages, qconly, _) =>
    Except.ok ((joinRows s).filter (todoClause tstages qconly priorities))

/-- `get_toload(db)`: the separate selection of rows to load into
TOASTER — `status=='toload'`, with no stage, quality or priority
constraint. -/
def get_toload (s : Store) : List JoinedRow :=
  (joinRows s).filter (fun r => r.file.status == "toload")

/-- `db.files.update().where(db.files.c.file_id==fid).values(...)`:
apply `g` to every file row whose `file_id` is `fid` (the primary key
makes that at most one row in a well-formed store). -/
def updateWhere (s : Store) (fid : Nat) (g : FileRow → FileRow) : Store :=
  { s with files := s.files.map (fun f => if f.file_id == fid then g f else f) }

/-- A sequence of by-file_id updates with the same `values(...)`, as
issued row by row inside one transaction (`reattempt_calibration`'s
update loop, and the per-row `submitted` flips of a dispatch pass). -/
def updateMany (s : Store) (fids : List Nat) (g : FileRow → FileRow) : Store :=
  fids.foldl (fun acc fid => updateWhere acc fid g) s

/-- The `values(...)` of `launch_task`'s transaction: `status =
'submitted'`, `last_modified = now`. -/
def submitValues (now : Nat) (f : FileRow) : FileRow :=
  { f with status := "submitted", last_modified := now }

/-- `launch_task(db, action, row)`: inside one transaction, flip the
row's status to `'submitted'`; after that transaction is released,
start the worker process (returned here as the process name
`"<action>.file_id:<id>"`, which stands for the out-of-band launch). -/
def launch_task (s : Store) (action : String) (row : JoinedRow) (now : Nat) :
    Store × String :=
  (updateWhere s row.file.file_id (submitValues now),
   action ++ ".file_id:" ++ toString row.file.file_id)

/-- One dispatch pass over a previously selected candidate list:
`launch_task` on each row in order, accumulating the launched process
names.  The selection that produced `rows` ran in its own earlier
transaction (`get_todo` / `get_toload`); each flip here is a separate
transaction. -/
def dispatchRows (s : Store) (action : String) (rows : List JoinedRow) (now : Nat) :
    Store × List String :=
  rows.foldl
    (fun acc r =>
      let st := launch_task acc.1 action r now
      (st.1, acc.2 ++ [st.2]))
    (s, [])

/-- The WHERE clause of `reattempt_calibration`'s select:
`status=='calfail' ∧ stage=='cleaned' ∧ qcpassed==True ∧
obs.sourcename==name` (SQL `qcpassed==True` holds only for true, and a
NULL `sourcename` never equals `name`). -/
def calfailClause (name : String) (r : JoinedRow) : Bool :=
  r.file.status == "calfail" && r.file.stage == "cleaned"
    && r.file.qcpassed == some true && r.sourcename == some name

/-- The `values(...)` of `reattempt_calibration`'s per-row update. -/
def reattemptValues (now : Nat) (f : FileRow) : FileRow :=
  { f with status := "new", note := some "Reattempting calibration",
           last_modified := now }

/-- `reattempt_calibration(db, sourcename)`: select the files with
`status='calfail', stage='cleaned', qcpassed=True` whose observation's
sourcename equals the canonicalised name, then set each back to
`status='new'` (with the note `'Reattempting calibration'` and a fresh
`last_modified`), all in one transaction. -/
def reattempt_calibration (s : Store) (sourcename : String) (now : Nat) : Store :=
  let name := canonName sourcename
  let rows := (joinRows s).filter (calfailClause name)
  updateMany s (rows.map (fun r => r.file.file_id)) (reattemptValues now)

/-- `get_obs(db, obs_id)`: the unique obs row, `none` when absent
(`DatabaseError` on duplicates is ruled out by the primary key; the
first match is taken here). -/
def get_obs (s : Store) (obs_id : Nat) : Option ObsRow :=
  s.obs.find? (fun o => o.obs_id == obs_id)

/-- The WHERE clause of `can_calibrate`'s calibrator search, on the obs
side of the join, for pulsar observation `p`: `obstype=='cal'`,
`sourcename == p.sourcename + "_R"`, `(rcvr == p.rcvr) | (rcvr IS
NULL)`, `start_mjd BETWEEN p.start_mjd - 2/24 AND p.start_mjd + 2/24`
(inclusive).  SQL three-valued logic: when `p.rcvr` is NULL the
equality disjunct never holds, so the receiver test is exactly
`o.rcvr = p.rcvr ∨ o.rcvr = none` as written below. -/
def calSearchClause (p : ObsRow) (o : ObsRow) : Bool :=
  o.obstype == "cal"
    && o.sourcename == p.sourcename ++ "_R"
    && (o.rcvr == p.rcvr || o.rcvr == none)
    && ratSubLe p.start_mjd TWOHRS_IN_DAYS o.start_mjd
    && ratLeAdd o.start_mjd p.start_mjd TWOHRS_IN_DAYS

/-- The rows `can_calibrate`'s query returns: `select([db.files])` from
`files ⟗ obs` with `calSearchClause` on the obs columns.  Because the
WHERE clause constrains only (non-NULL) obs columns, outer-join rows
with a NULL obs side are excluded, so the query is an inner join here:
each file row appears once per matching obs row that satisfies the
clause. -/
def calCandidates (s : Store) (p : ObsRow) : List FileRow :=
  s.files.flatMap (fun f =>
    ((obsMatches s f).filter (calSearchClause p)).map (fun _ => f))

/-- One step of `can_calibrate`'s python grouping loop on its
association list `obs`: `can_cal = obs.setdefault(row['obs_id'], True);
obs[row['obs_id']] &= (not (row['qcpassed'] == False))`.  `setFlag`
writes a key's value (appending the key when absent), `getFlag` reads
it. -/
def setFlag : List (Nat × Bool) → Nat → Bool → List (Nat × Bool)
  | [], k, b => [(k, b)]
  | (k2, b2) :: rest, k, b =>
    if k2 = k then (k2, b) :: rest else (k2, b2) :: setFlag rest k b

/-- Read a key's value in the association list (first occurrence). -/
def getFlag : List (Nat × Bool) → Nat → Option Bool
  | [], _ => none
  | (k2, b2) :: rest, k => if k2 = k then some b2 else getFlag rest k

/-- Whether a file row counts as passing in the grouping loop:
`not (row['qcpassed'] == False)` — NULL and True both pass. -/
def qcNotFailed (f : FileRow) : Bool :=
  !(f.qcpassed == some false)

/-- The body of `for row in rows:` in `can_calibrate`. -/
def stepFlag (m : List (Nat × Bool)) (f : FileRow) : List (Nat × Bool) :=
  setFlag m f.obs_id ((getFlag m f.obs_id).getD true && qcNotFailed f)

/-- The association list `obs` after `can_calibrate`'s grouping loop. -/
def obsFlags (rows : List FileRow) : List (Nat × Bool) :=
  rows.foldl stepFlag []

/-- `can_calibrate(db, obs_id)`: raises `InputError` for a non-pulsar
observation; returns True when the observation is younger than 7 days
(`mjdnow - start_mjd < 7`); otherwise groups the candidate calibrator
files by observation and returns `any(obs.values())` — True iff some
candidate observation contributed rows none of which has
`qcpassed == False`.  (`.error` also covers the crash the source would
hit when no obs row exists: `obsrow['obstype']` on `None`.) -/
def can_calibrate (s : Store) (mjdnow : ℚ) (obs_id : Nat) : Except String Bool :=
  match get_obs s obs_id with
  | none => Except.error "no obs row"
  | some obsrow =>
    if obsrow.obstype ≠ "pulsar" then
      Except.error "InputError"
    else if ratSubLt mjdnow obsrow.start_mjd 7 then
      Except.ok true
    else
      Except.ok ((obsFlags (calCandidates s obsrow)).any (fun kb => kb.2))

/-- `get_caldb(db, sourcename)`: the caldb row whose `sourcename`
equals the canonicalised name; `none` when there is none;
`DatabaseError` when there are several. -/
def get_caldb (s : Store) (sourcename : String) : Except String (Option CaldbRow) :=
  let name := canonName sourcename
  match s.caldbs.filter (fun c => c.sourcename == name) with
  | [] => Except.ok none
  | [c] => Except.ok (some c)
  | _ => Except.error "DatabaseError"

/-- `db.caldbs.update().where(caldb_id==cid).values(...)`. -/
def updCaldbWhere (s : Store) (cid : Nat) (g : CaldbRow → CaldbRow) : Store :=
  { s with caldbs := s.caldbs.map (fun c => if c.caldb_id == cid then g c else c) }

/-- Fresh primary key for a caldb insert (auto-increment). -/
def newCaldbId (s : Store) : Nat :=
  (s.caldbs.map (fun c => c.caldb_id)).foldr Nat.max 0 + 1

/-- `config.output_location + '/caldbs'`: the directory a fresh caldb
file is placed in.  `config` is outside the reviewed source; the
constant stands for the configured path. -/
def caldbOutdir : String := "caldbs"

/-- The WHERE clause of `update_caldb`'s calibrator count:
`status=='new' ∧ stage=='calibrated' ∧ obs.obstype=='cal'` — note, no
sourcename constraint. -/
def newCalClause (r : JoinedRow) : Bool :=
  r.file.status == "new" && r.file.stage == "calibrated" && r.obstype == some "cal"

/-- The rows `update_caldb`'s select returns. -/
def newCalRows (s : Store) : List JoinedRow :=
  (joinRows s).filter newCalClause

/-- `numnew`: how many of those rows were added after the caldb's last
update. -/
def numNewCal (s : Store) (lastupdated : Nat) : Nat :=
  ((newCalRows s).filter (fun r => lastupdated < r.file.added)).length

/-- `update_caldb(db, sourcename, force)`.  The external aggregation
tool (`pac`) is the oracle argument `pacOk`; the returned Bool records
whether the tool was invoked (a rebuild happened).  Behaviour modelled
from the source:
* canonicalise the name and fetch the caldb row (`DatabaseError`
  propagates);
* when a row exists, remember its `last_modified` as `lastupdated`,
  then mark it `status='updating', last_modified=now`;
* select all files with `status='new', stage='calibrated'` whose
  observation is a `'cal'` scan, count as `numnew` those with
  `added > lastupdated` (`datetime.min`, modelled 0, when no caldb row
  exists yet) and set `numentries` to the total count;
* run the tool iff `numnew` is nonzero or `force`;
* on tool failure, write `status='failed'` together with the values
  dict (`numentries`) and the note `'<numnew> new entries added'`; the
  source misspells `last_modifed` in this branch, so `last_modified`
  is not touched by the failure update (it keeps the value written by
  the in-progress mark);
* on success (or when no rebuild was needed), write `status='ready'`,
  the same note, `numentries` and `last_modified=now`;
* on the no-row path insert a fresh row instead (the insert carries no
  `note`; on the success path it carries no `status` either, so the
  unmodelled column defaults are written as `""`, `none` and `0`);
* finally always call `reattempt_calibration` on the canonical name. -/
def update_caldb (s : Store) (sourcename : String) (force : Bool) (pacOk : Bool)
    (now : Nat) : Except String (Store × Bool) :=
  let name := canonName sourcename
  match get_caldb s name with
  | Except.error e => Except.error e
  | Except.ok ocaldb =>
    let lastupdated : Nat :=
      match ocaldb with
      | none => 0
      | some c => c.last_modified
    let s1 :=
      match ocaldb with
      | none => s
      | some c =>
        updCaldbWhere s c.caldb_id
          (fun r => { r with status := "updating", last_modified := now })
    let rows := newCalRows s1
    let numnew := numNewCal s1 lastupdated
    let rebuilt := numnew ≠ 0 || force
    let theNote := toString numnew ++ " new entries added"
    let s2 :=
      if rebuilt && !pacOk then
        match ocaldb with
        | none =>
          { s1 with caldbs := s1.caldbs ++
              [{ caldb_id := newCaldbId s1, sourcename := name,
                 caldbpath := caldbOutdir,
                 caldbname := name.toUpper ++ ".caldb.txt",
                 numentries := rows.length, status := "failed",
                 note := none, last_modified := 0 }] }
        | some c =>
          updCaldbWhere s1 c.caldb_id
            (fun r => { r with status := "failed", note := some theNote,
                               numentries := rows.length })
      else
        match ocaldb with
        | none =>
          { s1 with caldbs := s1.caldbs ++
              [{ caldb_id := newCaldbId s1, sourcename := name,
                 caldbpath := caldbOutdir,
                 caldbname := name.toUpper ++ ".caldb.txt",
                 numentries := rows.length, status := "",
                 note := none, last_modified := 0 }] }
        | some c =>
          updCaldbWhere s1 c.caldb_id
            (fun r => { r with status := "ready", note := some theNote,
                               numentries := rows.length, last_modified := now })
    Except.ok (reattempt_calibration s2 name now, rebuilt)

/-- `get_log(db, obs_id)`: the unique log row for the observation;
`DatabaseError` when there is not exactly one. -/
def get_log (s : Store) (obs_id : Nat) : Except String LogRow :=
  match s.logs.filter (fun l => l.obs_id == obs_id) with
  | [l] => Except.ok l
  | _ => Except.error "DatabaseError"

/-- An exception as the workers record it: python type name and
message (`type(exc).__name__`, `msg`). -/
structure CgError where
  typeName : String
  msg : String
  deriving DecidableEq, Repr

/-- The values a successful stage transform hands back for the
database insert (the file-identity columns of the new row).  The
transforms themselves are external collaborators. -/
structure StageVals where
  filepath : String
  filename : String
  md5sum : String
  filesize : Nat
  note : Option String
  deriving DecidableEq, Repr

/-- Like `StageVals` for the calibrate stage, which additionally
records which calibrator file was used. -/
structure CalVals where
  filepath : String
  filename : String
  md5sum : String
  filesize : Nat
  note : Option String
  cal_file_id : Option Nat
  deriving DecidableEq, Repr

/-- How a worker invocation ends, as seen by the caller/harness. -/
inductive WorkerResult where
  | dbError (msg : String)
  | badStatusReturned
  | badStatusRaised
  | raised (e : CgError)
  | raisedOther (msg : String)
  | ok (file_id : Nat)
  deriving DecidableEq, Repr

/-- Fresh primary key for a files insert (auto-increment). -/
def newFileId (s : Store) : Nat :=
  (s.files.map (fun f => f.file_id)).foldr Nat.max 0 + 1

/-- The `values(status='running', last_modified=now)` update every
stage worker issues first. -/
def runningValues (now : Nat) (f : FileRow) : FileRow :=
  { f with status := "running", last_modified := now }

/-- `load_combined_file(filerow)`: the database effects of the combine
worker.  `filerow` is the snapshot the scheduler selected; `combined`
is the outcome of the external combine transform.  Order as in the
source: fetch the log (`DatabaseError` propagates untouched), mark the
row `running`, then check the `status=='new'` precondition — on
failure the worker RETURNS a `BadStatusError` value (it does not
raise, and the row stays `running`).  On a transform failure the row
is marked `failed` with a note `'Combining failed! <type>: <msg>'` and
the exception re-raised; on success a new `stage='combined'` row is
inserted and the parent marked `processed` in the same transaction. -/
def load_combined_file (s : Store) (filerow : FileRow) (now : Nat)
    (combined : Except CgError StageVals) : Store × WorkerResult :=
  match get_log s filerow.obs_id with
  | Except.error m => (s, WorkerResult.dbError m)
  | Except.ok _ =>
    let s1 := updateWhere s filerow.file_id (runningValues now)
    if filerow.status ≠ "new" then
      (s1, WorkerResult.badStatusReturned)
    else
      match combined with
      | Except.error e =>
        (updateWhere s1 filerow.file_id (fun f =>
            { f with status := "failed",
                     note := some ("Combining failed! " ++ e.typeName ++ ": " ++ e.msg),
                     last_modified := now }),
         WorkerResult.raised e)
      | Except.ok v =>
        let fid := newFileId s1
        let newRow : FileRow :=
          { file_id := fid, obs_id := filerow.obs_id, status := "new",
            stage := "combined", qcpassed := none, filepath := v.filepath,
            filename := v.filename, md5sum := v.md5sum, filesize := v.filesize,
            note := v.note, parent_file_id := some filerow.file_id,
            cal_file_id := none, added := now, last_modified := now }
        let s2 := { s1 with files := s1.files ++ [newRow] }
        (updateWhere s2 filerow.file_id (fun f =>
            { f with status := "processed", last_modified := now }),
         WorkerResult.ok fid)

/-- `load_calibrated_file(filerow, lock)`: the database effects of the
calibrate worker.  `row` is the joined snapshot from `get_todo`;
`calres` the outcome of the external calibration work; `arfName` the
source name read from the produced archive's header (external data),
used for the `update_caldb` call of the cal branch; `pacOk` that
call's tool oracle.  The row's columns used: `sourcename` (crashes in
python when NULL — `raisedOther` here), `obstype`, `status`, `stage`,
`qcpassed`.  Source order: canonicalise name, get_log, mark `running`,
RAISE `BadStatusError` unless `status='new' ∧ stage='cleaned' ∧
qcpassed` (truthy); in the try block a pulsar row with no caldb row
raises `DataReductionFailed` (a duplicate caldb raises
`DatabaseError`, caught by the same handler).  The handler marks the
row `failed` (cal scans) or, for pulsar scans, `calfail` when
`can_calibrate` holds and `toload` otherwise, with the note
`'Calibration failed! <type>: <msg>'` in the `failed`/`calfail` cases
but the fixed `'File cannot be calibrated'` in the `toload` case, then
re-raises.  (An exception inside the handler itself — `can_calibrate`
on a vanished/non-pulsar obs — propagates with no status update.)  On
success the `stage='calibrated'` row is inserted (status `'done'` for
a cal scan) and the parent marked `processed`; a cal scan then updates
the calibrator database with `force=True`.  (The source also passes a
`sourcename` value to the files insert; that column is not part of the
joins the controller reads and is not modelled.) -/
def load_calibrated_file (s : Store) (row : JoinedRow) (mjdnow : ℚ) (now : Nat)
    (calres : Except CgError CalVals) (arfName : String) (pacOk : Bool) :
    Store × WorkerResult :=
  match row.sourcename with
  | none => (s, WorkerResult.raisedOther "sourcename is NULL")
  | some srcnm =>
    let name := canonName srcnm
    match get_log s row.file.obs_id with
    | Except.error m => (s, WorkerResult.dbError m)
    | Except.ok _ =>
      let s1 := updateWhere s row.file.file_id (runningValues now)
      if row.file.status ≠ "new" ∨ row.file.stage ≠ "cleaned" ∨
          row.file.qcpassed ≠ some true then
        (s1, WorkerResult.badStatusRaised)
      else
        let tryOutcome : Except CgError CalVals :=
          if row.obstype == some "cal" then calres
          else
            match get_caldb s1 name with
            | Except.error m => Except.error ⟨"DatabaseError", m⟩
            | Except.ok none =>
              Except.error ⟨"DataReductionFailed",
                "No matching calibrator database row for " ++ name ++ "."⟩
            | Except.ok (some _) => calres
        match tryOutcome with
        | Except.error e =>
          if row.obstype == some "cal" then
            (updateWhere s1 row.file.file_id (fun f =>
                { f with status := "failed",
                         note := some ("Calibration failed! " ++ e.typeName ++ ": " ++ e.msg),
                         last_modified := now }),
             WorkerResult.raised e)
          else
            match can_calibrate s1 mjdnow row.file.obs_id with
            | Except.error m => (s1, WorkerResult.raisedOther m)
            | Except.ok true =>
              (updateWhere s1 row.file.file_id (fun f =>
                  { f with status := "calfail",
                           note := some ("Calibration failed! " ++ e.typeName ++ ": " ++ e.msg),
                           last_modified := now }),
               WorkerResult.raised e)
            | Except.ok false =>
              (updateWhere s1 row.file.file_id (fun f =>
                  { f with status := "toload",
                           note := some "File cannot be calibrated",
                           last_modified := now }),
               WorkerResult.raised e)
        | Except.ok v =>
          let fid := newFileId s1
          let newRow : FileRow :=
            { file_id := fid, obs_id := row.file.obs_id,
              status := if row.obstype == some "cal" then "done" else "new",
              stage := "calibrated", qcpassed := none, filepath := v.filepath,
              filename := v.filename, md5sum := v.md5sum, filesize := v.filesize,
              note := v.note, parent_file_id := some row.file.file_id,
              cal_file_id := v.cal_file_id, added := now, last_modified := now }
          let s2 := { s1 with files := s1.files ++ [newRow] }
          let s3 := updateWhere s2 row.file.file_id (fun f =>
              { f with status := "processed", last_modified := now })
          if row.obstype == some "cal" then
            match update_caldb s3 arfName true pacOk now with
            | Except.error m => (s3, WorkerResult.raisedOther m)
            | Except.ok st => (st.1, WorkerResult.ok fid)
          else
            (s3, WorkerResult.ok fid)

/-- `load_to_toaster(filerow)`: the database effects of the final-load
worker.  `loadres` is the outcome of the external TOASTER load (the
new rawfile id on success). -/
def load_to_toaster (s : Store) (filerow : FileRow) (now : Nat)
    (loadres : Except CgError Nat) : Store × WorkerResult :=
  match loadres with
  | Except.error e =>
    (updateWhere s filerow.file_id (fun f =>
        { f with status := "failed",
                 note := some "Could not be loaded into TOASTER.",
                 last_modified := now }),
     WorkerResult.raised e)
  | Except.ok rid =>
    (updateWhere s filerow.file_id (fun f =>
        { f with status := "done",
                 note := some ("Loaded into TOASTER DB (rawfile ID: " ++ toString rid ++ ")"),
                 last_modified := now }),
     WorkerResult.ok filerow.file_id)

/-- `move_file(db, file_id, destdir, destfn)`: relocate a file row's
artifact and record the new location.  `DatabaseError` unless exactly
one row has the id; when the destination equals the source nothing is
written; otherwise `filepath`, `filename` and `last_modified` are
updated (the copy/remove on disk is the non-transactional side
effect). -/
def move_file (s : Store) (file_id : Nat) (destdir : String)
    (destfn : Option String) (now : Nat) : Except String Store :=
  match s.files.filter (fun f => f.file_id == file_id) with
  | [ff] =>
    if ff.filepath ++ "/" ++ ff.filename == destdir ++ "/" ++ destfn.getD ff.filename then
      Except.ok s
    else
      Except.ok (updateWhere s file_id (fun f =>
        { f with filepath := destdir, filename := destfn.getD ff.filename,
                 last_modified := now }))
  | _ => Except.error "DatabaseError"

/-- `get_todo` with an error collapsed to the empty worklist (the main
loop only calls it with the valid action names, for which no error can
occur). -/
def todoOrNone (s : Store) (action : String) (priorities : Option (List String)) :
    List JoinedRow :=
  (get_todo s action priorities).toOption.getD []

/-- The per-action inner loop of one main-loop iteration: for each
action in order, select with `get_todo`, slice to the free slots,
launch each row (flipping it to `submitted`), and move on with the
remaining slots. -/
def mainTickActs (s : Store) (priorities : Option (List String))
    (acts : List String) (nfree : Nat) (now : Nat) (acc : List String) :
    Store × List String :=
  match acts with
  | [] => (s, acc)
  | a :: rest =>
    let rows := (todoOrNone s a priorities).take nfree
    let st := dispatchRows s a rows now
    mainTickActs st.1 priorities rest (nfree - rows.length) now (acc ++ st.2)

/-- One iteration of `main`'s loop, up to the launches: compute the
free slots; if any, first launch up to `nfree` `'load'` tasks from
`get_toload` (note: no priority filter), then walk the actions
`calibrate, clean, correct, combine` through `get_todo` with the
priority patterns.  Returns the store after all `submitted` flips and
the list of launched process names, in launch order. -/
def mainTick (s : Store) (priorities : Option (List String))
    (numproc inflight : Nat) (now : Nat) : Store × List String :=
  let nfree := numproc - inflight
  if nfree = 0 then (s, [])
  else
    let toload := (get_toload s).take nfree
    let st := dispatchRows s "load" toload now
    mainTickActs st.1 priorities ["calibrate", "clean", "correct", "combine"]
      (nfree - toload.length) now st.2

/-! ### Concrete fixtures used by witnesses and counterexamples -/

/-- A pulsar observation. -/
def exObs : ObsRow := ⟨1, 1, "PSRX", 100, "pulsar", none, 0⟩

/-- A freshly grouped file of `exObs`, eligible for the combine
action. -/
def exFile : FileRow :=
  ⟨1, 1, "new", "grouped", none, "pth", "fn", "md5", 10, none, none, none, 1, 0⟩

/-- The log row of `exObs`. -/
def exLog : LogRow := ⟨1, 1, "lp", "ln"⟩

/-- A corrected file of `exObs`, eligible for the clean action. -/
def exFile2 : FileRow :=
  ⟨2, 1, "new", "corrected", none, "pth2", "fn2", "md5b", 11, none, some 1, none, 2, 0⟩

/-- A store with one eligible combine row and one eligible clean row. -/
def exStore : Store := ⟨[exObs], [exFile, exFile2], [], [exLog]⟩

/-- A row already `processed`, invoked as if it were combine work. -/
def c5file : FileRow :=
  ⟨1, 1, "processed", "grouped", none, "pth", "fn", "md5", 10, none, none, none, 1, 0⟩

/-- Store for the C5 counterexample. -/
def c5store : Store := ⟨[exObs], [c5file], [], [exLog]⟩

/-- A cleaned, QC-passed pulsar file awaiting calibration. -/
def c7file : FileRow :=
  ⟨1, 1, "new", "cleaned", some true, "pth", "fn", "md5", 10, none, none, none, 1, 0⟩

/-- Store for the C7 counterexample: an old pulsar observation with
no calibrator anywhere and no caldb row. -/
def c7store : Store := ⟨[exObs], [c7file], [], [exLog]⟩

/-- A caldb row for the C7 witness store. -/
def c7caldb : CaldbRow := ⟨1, "PSRX", "cp", "cn", 1, "ready", none, 2⟩

/-- C7 witness store: like `c7store` but with a caldb row present, so
the transform's own failure (rather than the missing-caldb error)
reaches the handler. -/
def c7wstore : Store := ⟨[exObs], [c7file], [c7caldb], [exLog]⟩

/-- An existing caldb row for a source with older data. -/
def c6caldb : CaldbRow := ⟨1, "PSR1", "cp", "cn", 5, "ready", some "old", 10⟩

/-- The calibrator observation whose new calibrated file triggers the
rebuild. -/
def c6obs : ObsRow := ⟨3, 1, "PSR1_R", 100, "cal", none, 0⟩

/-- A freshly calibrated calibrator file (added after the caldb's last
update). -/
def c6file : FileRow :=
  ⟨4, 3, "new", "calibrated", none, "pc", "fc", "mc", 10, none, none, none, 20, 0⟩

/-- Store for the C6 counterexample. -/
def c6store : Store := ⟨[exObs, c6obs], [c6file], [c6caldb], [exLog]⟩

/-- A toload row for a source outside every priority pattern. -/
def c9obs : ObsRow := ⟨1, 1, "J9999", 100, "pulsar", none, 0⟩

/-- The toload file of `c9obs`. -/
def c9file : FileRow :=
  ⟨1, 1, "toload", "calibrated", some true, "pth", "fn", "md5", 10, none, none, none, 1, 0⟩

/-- Store for the C9 counterexample. -/
def c9store : Store := ⟨[c9obs], [c9file], [], [exLog]⟩

/-- The artifact identity and lineage of a File row: stage, checksum,
size, observation, provenance, creation time. -/
def artifactIntact (f g : FileRow) : Prop :=
  g.stage = f.stage ∧ g.md5sum = f.md5sum ∧ g.filesize = f.filesize ∧
    g.obs_id = f.obs_id ∧ g.parent_file_id = f.parent_file_id ∧ g.added = f.added

/-- A row update that may only touch status, note and last-modified. -/
def rowStatusOnly (f g : FileRow) : Prop :=
  artifactIntact f g ∧ g.filepath = f.filepath ∧ g.filename = f.filename ∧
    g.qcpassed = f.qcpassed ∧ g.cal_file_id = f.cal_file_id

/-- A row update that may only touch filepath, filename and
last-modified (what `move_file` does). -/
def placeOnly (f g : FileRow) : Prop :=
  artifactIntact f g ∧ g.status = f.status ∧ g.note = f.note ∧
    g.qcpassed = f.qcpassed ∧ g.cal_file_id = f.cal_file_id

/-- The file primary keys of a store. -/
def fileIds (s : Store) : List Nat := s.files.map (fun f => f.file_id)

/-- One store transition whose only effect on pre-existing File rows
is through their status/note/last-modified fields (new rows may be
inserted, never removed). -/
def statusStep (s s2 : Store) : Prop :=
  (∀ fid, fid ∈ fileIds s → fid ∈ fileIds s2) ∧
    ∀ f2 ∈ s2.files, f2.file_id ∈ fileIds s →
      ∃ f ∈ s.files, f.file_id = f2.file_id ∧ rowStatusOnly f f2

/-- The processed combined file of the C8 counterexample, sitting in
its pre-move directory. -/
def c8file : FileRow :=
  ⟨1, 1, "processed", "combined", none, "olddir", "fn", "md5", 10, none, none, none, 1, 0⟩

/-- Store for the C8 counterexample. -/
def c8store : Store := ⟨[exObs], [c8file], [], [exLog]⟩

/-- The rows `reattempt_calibration(source_name)` qualifies, viewed on
the file row itself: `status='calfail', stage='cleaned',
qcpassed=True` and some obs row with the file's obs_id carries the
canonicalised source name. -/
def calfailQualifies (s : Store) (name : String) (f : FileRow) : Bool :=
  f.status == "calfail" && f.stage == "cleaned" && f.qcpassed == some true &&
    s.obs.any (fun o => o.obs_id == f.obs_id && o.sourcename == name)

/-- The pulsar observation of the C3 witness. -/
def c3obs : ObsRow := ⟨1, 1, "PSR1", 100, "pulsar", none, 0⟩

/-- Three qualifying calfail files of `c3obs`. -/
def c3f1 : FileRow :=
  ⟨1, 1, "calfail", "cleaned", some true, "p1", "f1", "m1", 10, none, none, none, 1, 0⟩

def c3f2 : FileRow :=
  ⟨2, 1, "calfail", "cleaned", some true, "p2", "f2", "m2", 10, none, none, none, 1, 0⟩

def c3f3 : FileRow :=
  ⟨3, 1, "calfail", "cleaned", some true, "p3", "f3", "m3", 10, none, none, none, 1, 0⟩

/-- A calfail file that failed quality control — it must stay put. -/
def c3f4 : FileRow :=
  ⟨4, 1, "calfail", "cleaned", some false, "p4", "f4", "m4", 10, none, none, none, 1, 0⟩

/-- Store for the C3 witness (the spec's own example shape). -/
def c3store : Store := ⟨[c3obs], [c3f1, c3f2, c3f3, c3f4], [], [exLog]⟩

/-- Modelled from the spec: the claim's reading of the old-observation
test.  Some calibrator Observation has sourcename `pulsar + "_R"`,
start time within two hours, matching-or-unset receiver, and EVERY File
of that observation has `qcpassed != False` — with no requirement that
the observation has any File at all, so an observation with zero Files
qualifies vacuously. -/
def claimCalPredB (s : Store) (p : ObsRow) : Bool :=
  s.obs.any (fun o =>
    o.obstype == "cal"
      && o.sourcename == p.sourcename ++ "_R"
      && (o.rcvr == p.rcvr || o.rcvr == none)
      && ratSubLe p.start_mjd TWOHRS_IN_DAYS o.start_mjd
      && ratLeAdd o.start_mjd p.start_mjd TWOHRS_IN_DAYS
      && (s.files.filter (fun f => f.obs_id == o.obs_id)).all qcNotFailed)

/-- A matching calibrator observation of `exObs` with no files. -/
def c2cal : ObsRow := ⟨2, 1, "PSRX_R", 100, "cal", none, 0⟩

/-- A store holding the pulsar observation and the file-less matching
calibrator observation. -/
def c2store : Store := ⟨[exObs, c2cal], [], [], []⟩

theorem TWOHRS_IN_DAYS_eq : TWOHRS_IN_DAYS = 2/24 := by
  have h : (2 : ℚ)/24 = 1/12 := by norm_num
  rw [h, TWOHRS_IN_DAYS]
  rw [Rat.mk'_eq_divInt, Rat.divInt_eq_div]
  norm_num

theorem ratSubLe_iff (a c b : ℚ) : ratSubLe a c b = true ↔ a - c ≤ b := by
  rw [ratSubLe, decide_eq_true_eq]
  have ha : ((a.den : ℚ)) ≠ 0 := by positivity
  have hc : ((c.den : ℚ)) ≠ 0 := by positivity
  conv_rhs => rw [← Rat.num_div_den a, ← Rat.num_div_den c, ← Rat.num_div_den b]
  rw [div_sub_div _ _ ha hc, div_le_div_iff₀ (by positivity) (by positivity)]
  norm_cast
  constructor <;> intro h <;> linarith

theorem ratLeAdd_iff (a b c : ℚ) : ratLeAdd a b c = true ↔ a ≤ b + c := by
  rw [ratLeAdd, decide_eq_true_eq]
  have hb : ((b.den : ℚ)) ≠ 0 := by positivity
  have hc : ((c.den : ℚ)) ≠ 0 := by positivity
  conv_rhs => rw [← Rat.num_div_den a, ← Rat.num_div_den b, ← Rat.num_div_den c]
  rw [div_add_div _ _ hb hc, div_le_div_iff₀ (by positivity) (by positivity)]
  norm_cast
  constructor <;> intro h <;> linarith

theorem ratSubLt_iff (a c b : ℚ) : ratSubLt a c b = true ↔ a - c < b := by
  rw [ratSubLt, decide_eq_true_eq]
  have ha : ((a.den : ℚ)) ≠ 0 := by positivity
  have hc : ((c.den : ℚ)) ≠ 0 := by positivity
  conv_rhs => rw [← Rat.num_div_den a, ← Rat.num_div_den c, ← Rat.num_div_den b]
  rw [div_sub_div _ _ ha hc, div_lt_div_iff₀ (by positivity) (by positivity)]
  norm_cast
  constructor <;> intro h <;> linarith

/-! ### General lemmas about the store operations -/

/-- `updateMany` as a single map: when the update keeps the primary
key and is idempotent, folding it over a key list updates each row
whose key is in the list, once. -/
theorem updateMany_files (s : Store) (fids : List Nat) (g : FileRow → FileRow)
    (hg : ∀ f, (g f).file_id = f.file_id) (hgg : ∀ f, g (g f) = g f) :
    (updateMany s fids g).files =
      s.files.map (fun f => if fids.contains f.file_id then g f else f) := by
  induction fids generalizing s with
  | nil =>
    simp [updateMany]
  | cons fid rest ih =>
    have hstep : updateMany s (fid :: rest) g = updateMany (updateWhere s fid g) rest g := by
      simp [updateMany]
    rw [hstep, ih, updateWhere, List.map_map]
    refine List.map_congr_left (fun f _ => ?_)
    by_cases h1 : f.file_id = fid
    · by_cases h2 : f.file_id ∈ rest
      · simp [Function.comp, h1, hg, h2, hgg]
      · simp [Function.comp, h1, hg, h2, hgg]
    · by_cases h2 : f.file_id ∈ rest
      · simp [Function.comp, h1, h2]
      · simp [Function.comp, h1, h2]

/-- `updateMany` leaves the other tables alone. -/
theorem updateMany_others (s : Store) (fids : List Nat) (g : FileRow → FileRow) :
    (updateMany s fids g).obs = s.obs ∧ (updateMany s fids g).caldbs = s.caldbs ∧
      (updateMany s fids g).logs = s.logs := by
  induction fids generalizing s with
  | nil => simp [updateMany]
  | cons fid rest ih =>
    have hstep : updateMany s (fid :: rest) g = updateMany (updateWhere s fid g) rest g := by
      simp [updateMany]
    rw [hstep]
    simpa [updateWhere] using ih (updateWhere s fid g)

/-- The store component of a dispatch pass is `updateMany` with the
submitted flip over the selected ids. -/
theorem dispatchRows_fst (s : Store) (action : String) (rows : List JoinedRow)
    (now : Nat) :
    (dispatchRows s action rows now).1 =
      updateMany s (rows.map (fun r => r.file.file_id)) (submitValues now) := by
  suffices h : ∀ (rows : List JoinedRow) (s : Store) (ns : List String),
      ((rows.foldl
        (fun acc r =>
          let st := launch_task acc.1 action r now
          (st.1, acc.2 ++ [st.2])) (s, ns)).1 : Store) =
      updateMany s (rows.map (fun r => r.file.file_id)) (submitValues now) by
    exact h rows s []
  intro rows
  induction rows with
  | nil => intro s ns; simp [updateMany]
  | cons r rest ih =>
    intro s ns
    simp only [List.foldl_cons, List.map_cons]
    rw [ih]
    simp [updateMany, launch_task]

/-- The launched-names component of a dispatch pass: one process name
per selected row, in order. -/
theorem dispatchRows_snd (s : Store) (action : String) (rows : List JoinedRow)
    (now : Nat) :
    (dispatchRows s action rows now).2 =
      rows.map (fun r => action ++ ".file_id:" ++ toString r.file.file_id) := by
  suffices h : ∀ (rows : List JoinedRow) (s : Store) (ns : List String),
      ((rows.foldl
        (fun acc r =>
          let st := launch_task acc.1 action r now
          (st.1, acc.2 ++ [st.2])) (s, ns)).2 : List String) =
      ns ++ rows.map (fun r => action ++ ".file_id:" ++ toString r.file.file_id) by
    simpa using h rows s []
  intro rows
  induction rows with
  | nil => intro s ns; simp
  | cons r rest ih =>
    intro s ns
    simp only [List.foldl_cons, List.map_cons]
    rw [ih]
    simp [launch_task]

/-- After a dispatch pass, every store row whose id was selected reads
`submitted`. -/
theorem dispatchRows_submitted (s : Store) (action : String) (rows : List JoinedRow)
    (now : Nat) (f : FileRow)
    (hf : f ∈ (dispatchRows s action rows now).1.files)
    (hid : f.file_id ∈ rows.map (fun r => r.file.file_id)) :
    f.status = "submitted" := by
  rw [dispatchRows_fst,
    updateMany_files s (rows.map (fun r => r.file.file_id)) (submitValues now)
      (fun f0 => rfl) (fun f0 => rfl)] at hf
  rcases List.mem_map.mp hf with ⟨f0, _, rfl⟩
  cases hc : (rows.map (fun r => r.file.file_id)).contains f0.file_id with
  | true => simp [hc, submitValues]
  | false =>
    rw [hc] at hid
    simp only [Bool.false_eq_true, if_false] at hid
    exact absurd (by simpa using hid) (by simpa using hc)

/-- A joined row's file component is a store row. -/
theorem file_mem_of_mem_joinRows (s : Store) (r : JoinedRow)
    (hr : r ∈ joinRows s) : r.file ∈ s.files := by
  rcases List.mem_flatMap.mp hr with ⟨f, hf, hjf⟩
  rw [joinFile] at hjf
  rcases hmatch : obsMatches s f with _ | ⟨o, os⟩
  · rw [hmatch] at hjf
    simp at hjf
    rw [hjf]
    exact hf
  · rw [hmatch] at hjf
    rcases List.mem_map.mp hjf with ⟨o2, _, rfl⟩
    exact hf

/-- A joined row with a non-NULL sourcename comes from a matching obs
row carrying that sourcename. -/
theorem obs_of_joined_sourcename (s : Store) (r : JoinedRow) (n : String)
    (hr : r ∈ joinRows s) (hn : r.sourcename = some n) :
    ∃ o ∈ s.obs, o.obs_id = r.file.obs_id ∧ o.sourcename = n ∧ r = mkJoined r.file o := by
  rcases List.mem_flatMap.mp hr with ⟨f, hf, hjf⟩
  rw [joinFile] at hjf
  rcases hmatch : obsMatches s f with _ | ⟨o, os⟩
  · rw [hmatch] at hjf
    simp at hjf
    rw [hjf] at hn
    simp at hn
  · rw [hmatch] at hjf
    rcases List.mem_map.mp hjf with ⟨o2, ho2, rfl⟩
    have ho2' : o2 ∈ obsMatches s f := by rw [hmatch]; exact ho2
    rcases List.mem_filter.mp ho2' with ⟨ho2s, ho2id⟩
    refine ⟨o2, ho2s, ?_, ?_, rfl⟩
    · simpa [mkJoined] using (by simpa using ho2id : o2.obs_id = f.obs_id)
    · have h := hn
      simp [mkJoined] at h
      exact h

/-- Conversely, a store file paired with a matching obs row appears in
the join. -/
theorem mkJoined_mem_joinRows (s : Store) (f : FileRow) (o : ObsRow)
    (hf : f ∈ s.files) (ho : o ∈ s.obs) (hid : o.obs_id = f.obs_id) :
    mkJoined f o ∈ joinRows s := by
  refine List.mem_flatMap.mpr ⟨f, hf, ?_⟩
  rw [joinFile]
  have homem : o ∈ obsMatches s f := List.mem_filter.mpr ⟨ho, by simp [hid]⟩
  rcases hmatch : obsMatches s f with _ | ⟨o1, os⟩
  · rw [hmatch] at homem; simp at homem
  · rw [hmatch] at homem
    exact List.mem_map.mpr ⟨o, homem, rfl⟩

/-! ### C10 — `get_todo` with the `load` action -/

/-- C10: for every store state and every priority list, `get_todo`
with the `'load'` action returns the empty list: that action's
target-stage set is the empty list, so the `stage IN ()` filter is
unsatisfiable; final-load rows are reached only through the separate
`status='toload'` query (`get_toload`). -/
theorem get_todo_load_empty (s : Store) (prios : Option (List String)) :
    get_todo s "load" prios = Except.ok [] := by
  rw [get_todo]
  simp only [ACTIONS]
  refine congrArg Except.ok ?_
  refine List.filter_eq_nil_iff.mpr (fun r _ => ?_)
  simp [todoClause]

/-! ### C4 — the Work Selector's filters -/

/-- C4 counterexample: with the priority pattern `"PSR%"`, `get_todo`
returns the row for source `"PSRX"`, although `"PSRX"` glob-matches no
pattern in the list (`'%'` is a literal character in glob syntax).
The claim's "matches at least one pattern (glob-style)" is therefore
false of the code: the patterns are SQL LIKE patterns. -/
theorem get_todo_glob_cex :
    get_todo exStore "combine" (some ["PSR%"]) =
      Except.ok [mkJoined exFile exObs] ∧
    globMatchSpec "PSR%" "PSRX" = false ∧
    likeMatch "PSR%" "PSRX" = true := by decide

/-- C4 (amended): every row `get_todo` returns has `status='new'`, a
stage in the action's stage list, `qcpassed=true` when the action is
quality-gated, and — when priority patterns are given — a non-NULL
sourcename that SQL-LIKE-matches at least one pattern (a strict
allow-list; rows of non-matching sources are never returned).  The
selection itself writes nothing: `get_todo` only reads the store. -/
theorem get_todo_only_eligible
    (s : Store) (act : String) (prios : Option (List String))
    (stages : List String) (qconly withlock : Bool) (rows : List JoinedRow)
    (r : JoinedRow)
    (hact : ACTIONS act = some (some stages, qconly, withlock))
    (hrows : get_todo s act prios = Except.ok rows)
    (hr : r ∈ rows) :
    r.file.status = "new" ∧ r.file.stage ∈ stages ∧
      (qconly = true → r.file.qcpassed = some true) ∧
      (∀ ps, prios = some ps →
        ∃ n, r.sourcename = some n ∧ ∃ p ∈ ps, likeMatch p n = true) := by
  rw [get_todo, hact] at hrows
  have hrows' : rows = (joinRows s).filter (todoClause (some stages) qconly prios) :=
    (Except.ok.inj hrows).symm
  rw [hrows'] at hr
  have hcl := (List.mem_filter.mp hr).2
  rw [todoClause.eq_def] at hcl
  simp only [Bool.and_eq_true] at hcl
  obtain ⟨⟨⟨hst, hstage⟩, hqc⟩, hprio⟩ := hcl
  refine ⟨by simpa using hst, by simpa using hstage, ?_, ?_⟩
  · intro hq
    rcases (by simpa using hqc : qconly = false ∨ r.file.qcpassed = some true) with h | h
    · rw [hq] at h; cases h
    · exact h
  · intro ps hps
    rw [hps] at hprio
    cases hsn : r.sourcename with
    | none => rw [hsn] at hprio; cases hprio
    | some n =>
      rw [hsn] at hprio
      rcases List.any_eq_true.mp hprio with ⟨p, hp, hlk⟩
      exact ⟨n, rfl, p, hp, hlk⟩

/-- C4 witness: the amended selector theorem at the counterexample
store. -/
theorem get_todo_only_eligible_witness :
    (mkJoined exFile exObs).file.status = "new" ∧
      (mkJoined exFile exObs).file.stage ∈ ["grouped"] ∧
      (false = true → (mkJoined exFile exObs).file.qcpassed = some true) ∧
      (∀ ps, (some ["PSR%"] : Option (List String)) = some ps →
        ∃ n, (mkJoined exFile exObs).sourcename = some n ∧
          ∃ p ∈ ps, likeMatch p n = true) :=
  get_todo_only_eligible exStore "combine" (some ["PSR%"]) ["grouped"] false false
    [mkJoined exFile exObs] (mkJoined exFile exObs) (by decide) (by decide) (by decide)

/-! ### C1 — dispatch is not a single select-and-flip transaction -/

/-- C1 counterexample: `get_todo` is a pure selection in its own
transaction and `launch_task` flips the status and launches in a later
one, with no status recheck.  Hence two dispatch attempts that both
ran their selection against the same store state (`exStore` here) each
flip and each launch the same eligible row: the row of file 1 gets two
worker launches.  (The claim's single-transaction select-and-flip and
its concurrent exactly-once guarantee both fail.) -/
theorem dispatch_concurrent_double_launch_cex :
    get_todo exStore "combine" none = Except.ok [mkJoined exFile exObs] ∧
    ((dispatchRows exStore "combine" [mkJoined exFile exObs] 5).2 ++
      (dispatchRows (dispatchRows exStore "combine" [mkJoined exFile exObs] 5).1
        "combine" [mkJoined exFile exObs] 6).2).count "combine.file_id:1" = 2 := by
  decide

/-- C1 (amended): for successive dispatch attempts the flip does make
the row ineligible: after a dispatch pass over the rows selected by
`get_todo`, no later selection (any action, any priorities) returns a
row with one of the dispatched file ids, because those rows now read
`submitted` while the selector requires `status='new'`. -/
theorem dispatch_sequential_exactly_once
    (s : Store) (act1 act2 : String) (prios1 prios2 : Option (List String))
    (now : Nat) (rows1 rows2 : List JoinedRow) (r1 : JoinedRow)
    (h1 : get_todo s act1 prios1 = Except.ok rows1)
    (h2 : get_todo (dispatchRows s act1 rows1 now).1 act2 prios2 = Except.ok rows2)
    (hr1 : r1 ∈ rows1) :
    (rows2.map (fun r => r.file.file_id)).contains r1.file.file_id = false := by
  rw [List.contains_eq_any_beq]
  rw [List.any_eq_false]
  rintro fid hfid
  rcases List.mem_map.mp hfid with ⟨r2, hr2, rfl⟩
  intro hbeq
  have hid : r2.file.file_id = r1.file.file_id :=
    (by simpa using hbeq : r1.file.file_id = r2.file.file_id).symm
  -- unpack the second selection
  cases hact : ACTIONS act2 with
  | none => rw [get_todo, hact] at h2; cases h2
  | some t =>
    obtain ⟨tst, qc, wl⟩ := t
    rw [get_todo, hact] at h2
    have hrows2 : rows2 = (joinRows (dispatchRows s act1 rows1 now).1).filter
        (todoClause tst qc prios2) := (Except.ok.inj h2).symm
    rw [hrows2] at hr2
    have hmemj := (List.mem_filter.mp hr2).1
    have hcl := (List.mem_filter.mp hr2).2
    rw [todoClause.eq_def] at hcl
    simp only [Bool.and_eq_true] at hcl
    have hnew : r2.file.status = "new" := by
      have := hcl.1.1.1
      simpa using this
    have hfmem : r2.file ∈ (dispatchRows s act1 rows1 now).1.files :=
      file_mem_of_mem_joinRows _ _ hmemj
    have hsub : r2.file.status = "submitted" := by
      refine dispatchRows_submitted s act1 rows1 now r2.file hfmem ?_
      rw [hid]
      exact List.mem_map.mpr ⟨r1, hr1, rfl⟩
    rw [hnew] at hsub
    exact absurd hsub (by decide)

/-- C1 witness: after the combine row of `exStore` is dispatched, a
clean-action selection still returns the corrected row of file 2, and
file 1 is not among the returned ids. -/
theorem dispatch_sequential_exactly_once_witness :
    (([mkJoined exFile2 exObs].map (fun r => r.file.file_id)).contains
      (mkJoined exFile exObs).file.file_id) = false :=
  dispatch_sequential_exactly_once exStore "combine" "clean" none none 5
    [mkJoined exFile exObs] [mkJoined exFile2 exObs] (mkJoined exFile exObs)
    (by decide) (by decide) (by decide)

/-! ### C5 — BadStatusError does not leave the row untouched -/

/-- C5 counterexample: invoking the combine worker on a row that is
not in the required precondition yields the BadStatusError outcome,
but the row is NOT left untouched: its status has been flipped to
`'running'` (and `last_modified` bumped) by the update the worker
issues before checking the precondition, and no rollback happens. -/
theorem bad_status_row_touched_cex :
    load_combined_file c5store c5file 5 (Except.ok ⟨"np", "nf", "nm", 3, none⟩) =
      ({ c5store with
          files := [{ c5file with status := "running", last_modified := 5 }] },
        WorkerResult.badStatusReturned) ∧
    c5file.status = "processed" ∧
    ({ c5file with status := "running", last_modified := 5 }).status ≠ c5file.status := by
  decide

/-- C5 (amended): on a row failing the `(status, stage)` precondition
the worker's outcome is the BadStatusError — RETURNED as a value by
the combine worker, raised by the calibrate worker — and the store is
exactly the input store with that row's `status` set to `'running'`
and its `last_modified` bumped (nothing else changes, and the flip is
not rolled back). -/
theorem bad_status_leaves_row_running
    (s : Store) (filerow : FileRow) (row : JoinedRow) (nm : String)
    (now : Nat) (tr : Except CgError StageVals) (mjdnow : ℚ)
    (calres : Except CgError CalVals) (arfName : String) (pacOk : Bool)
    (lg lg2 : LogRow)
    (hlog : get_log s filerow.obs_id = Except.ok lg)
    (hlog2 : get_log s row.file.obs_id = Except.ok lg2)
    (hsrc : row.sourcename = some nm)
    (hbad : filerow.status ≠ "new")
    (hbad2 : row.file.status ≠ "new" ∨ row.file.stage ≠ "cleaned" ∨
      row.file.qcpassed ≠ some true) :
    load_combined_file s filerow now tr =
      (updateWhere s filerow.file_id (runningValues now),
        WorkerResult.badStatusReturned) ∧
    load_calibrated_file s row mjdnow now calres arfName pacOk =
      (updateWhere s row.file.file_id (runningValues now),
        WorkerResult.badStatusRaised) := by
  constructor
  · rw [load_combined_file, hlog]
    simp [hbad]
  · rw [load_calibrated_file, hsrc]
    rw [hlog2]
    simp [hbad2]

/-- C5 witness: the amended theorem at the store of the
counterexample, for both workers at once. -/
theorem bad_status_leaves_row_running_witness :
    load_combined_file c5store c5file 7 (Except.error ⟨"ValueError", "boom"⟩) =
      (updateWhere c5store c5file.file_id (runningValues 7),
        WorkerResult.badStatusReturned) ∧
    load_calibrated_file c5store (mkJoined c5file exObs) 200 7
        (Except.ok ⟨"cp", "cf", "cm", 3, none, none⟩) "PSRX_R" true =
      (updateWhere c5store (mkJoined c5file exObs).file.file_id (runningValues 7),
        WorkerResult.badStatusRaised) :=
  bad_status_leaves_row_running c5store c5file (mkJoined c5file exObs) "PSRX"
    7 (Except.error ⟨"ValueError", "boom"⟩) 200
    (Except.ok ⟨"cp", "cf", "cm", 3, none, none⟩) "PSRX_R" true exLog exLog
    (by decide) (by decide) (by decide) (by decide) (by decide)

/-! ### C7 — the calibrate worker's failure policy -/

/-- C7 counterexample: a pulsar calibration failure for which the
Dependency Resolver says "cannot be calibrated later" marks the row
`toload` with the FIXED note `'File cannot be calibrated'` — the note
does not combine the error category and message, contradicting the
claim's "in every failure case". -/
theorem calibrate_toload_note_cex :
    load_calibrated_file c7store (mkJoined c7file exObs) 200 5
        (Except.ok ⟨"cp", "cf", "cm", 3, none, none⟩) "PSRX_R" true =
      ({ c7store with
          files := [{ c7file with status := "toload",
                                  note := some "File cannot be calibrated",
                                  last_modified := 5 }] },
        WorkerResult.raised
          ⟨"DataReductionFailed", "No matching calibrator database row for PSRX."⟩) ∧
    some "File cannot be calibrated" ≠
      some ("Calibration failed! " ++ "DataReductionFailed" ++ ": " ++
        "No matching calibrator database row for PSRX.") := by
  decide

/-- C7 (amended): on a failure inside the calibrate transform, within
one transaction the row is marked `failed` (cal scans) with the
combining note, or — pulsar scans — `calfail` with the combining note
when `can_calibrate` holds, and `toload` with the FIXED note
`'File cannot be calibrated'` otherwise; in each case the exception is
re-raised so the worker exits abnormally. -/
theorem calibrate_failure_policy
    (s : Store) (row : JoinedRow) (nm : String) (now : Nat) (mjdnow : ℚ)
    (calres : Except CgError CalVals) (arfName : String) (pacOk : Bool)
    (e : CgError) (lg : LogRow) (c : CaldbRow)
    (hsrc : row.sourcename = some nm)
    (hlog : get_log s row.file.obs_id = Except.ok lg)
    (hok : row.file.status = "new" ∧ row.file.stage = "cleaned" ∧
      row.file.qcpassed = some true)
    (herr : calres = Except.error e) :
    (row.obstype = some "cal" →
      load_calibrated_file s row mjdnow now calres arfName pacOk =
        (updateWhere (updateWhere s row.file.file_id (runningValues now))
            row.file.file_id (fun f =>
              { f with status := "failed",
                       note := some ("Calibration failed! " ++ e.typeName ++ ": " ++ e.msg),
                       last_modified := now }),
          WorkerResult.raised e)) ∧
    (row.obstype ≠ some "cal" →
      get_caldb s (canonName nm) = Except.ok (some c) →
      can_calibrate (updateWhere s row.file.file_id (runningValues now)) mjdnow
          row.file.obs_id = Except.ok true →
      load_calibrated_file s row mjdnow now calres arfName pacOk =
        (updateWhere (updateWhere s row.file.file_id (runningValues now))
            row.file.file_id (fun f =>
              { f with status := "calfail",
                       note := some ("Calibration failed! " ++ e.typeName ++ ": " ++ e.msg),
                       last_modified := now }),
          WorkerResult.raised e)) ∧
    (row.obstype ≠ some "cal" →
      get_caldb s (canonName nm) = Except.ok (some c) →
      can_calibrate (updateWhere s row.file.file_id (runningValues now)) mjdnow
          row.file.obs_id = Except.ok false →
      load_calibrated_file s row mjdnow now calres arfName pacOk =
        (updateWhere (updateWhere s row.file.file_id (runningValues now))
            row.file.file_id (fun f =>
              { f with status := "toload",
                       note := some "File cannot be calibrated",
                       last_modified := now }),
          WorkerResult.raised e)) := by
  obtain ⟨h1, h2, h3⟩ := hok
  refine ⟨?_, ?_, ?_⟩
  · intro hcal
    rw [load_calibrated_file, hsrc]
    rw [hlog]
    simp [h1, h2, h3, hcal, herr]
  · intro hcal hdb hcc
    have hcalb : (row.obstype == some "cal") = false := by
      simpa using hcal
    rw [load_calibrated_file, hsrc]
    rw [hlog]
    have hdb' : get_caldb (updateWhere s row.file.file_id (runningValues now))
        (canonName nm) = Except.ok (some c) := hdb
    simp [h1, h2, h3, hcalb, hdb', hcc, herr]
  · intro hcal hdb hcc
    have hcalb : (row.obstype == some "cal") = false := by
      simpa using hcal
    rw [load_calibrated_file, hsrc]
    rw [hlog]
    have hdb' : get_caldb (updateWhere s row.file.file_id (runningValues now))
        (canonName nm) = Except.ok (some c) := hdb
    simp [h1, h2, h3, hcalb, hdb', hcc, herr]

/-- C7 witness: the failure-policy theorem at a concrete pulsar row
whose observation cannot be calibrated later. -/
theorem calibrate_failure_policy_witness :
    ((mkJoined c7file exObs).obstype = some "cal" →
      load_calibrated_file c7wstore (mkJoined c7file exObs) 200 5
          (Except.error ⟨"DataReductionFailed", "no cal"⟩) "PSRX_R" true =
        (updateWhere (updateWhere c7wstore 1 (runningValues 5)) 1 (fun f =>
            { f with status := "failed",
                     note := some ("Calibration failed! " ++ "DataReductionFailed" ++ ": " ++ "no cal"),
                     last_modified := 5 }),
          WorkerResult.raised ⟨"DataReductionFailed", "no cal"⟩)) ∧
    ((mkJoined c7file exObs).obstype ≠ some "cal" →
      get_caldb c7wstore (canonName "PSRX") = Except.ok (some c7caldb) →
      can_calibrate (updateWhere c7wstore 1 (runningValues 5)) 200 1 = Except.ok true →
      load_calibrated_file c7wstore (mkJoined c7file exObs) 200 5
          (Except.error ⟨"DataReductionFailed", "no cal"⟩) "PSRX_R" true =
        (updateWhere (updateWhere c7wstore 1 (runningValues 5)) 1 (fun f =>
            { f with status := "calfail",
                     note := some ("Calibration failed! " ++ "DataReductionFailed" ++ ": " ++ "no cal"),
                     last_modified := 5 }),
          WorkerResult.raised ⟨"DataReductionFailed", "no cal"⟩)) ∧
    ((mkJoined c7file exObs).obstype ≠ some "cal" →
      get_caldb c7wstore (canonName "PSRX") = Except.ok (some c7caldb) →
      can_calibrate (updateWhere c7wstore 1 (runningValues 5)) 200 1 = Except.ok false →
      load_calibrated_file c7wstore (mkJoined c7file exObs) 200 5
          (Except.error ⟨"DataReductionFailed", "no cal"⟩) "PSRX_R" true =
        (updateWhere (updateWhere c7wstore 1 (runningValues 5)) 1 (fun f =>
            { f with status := "toload",
                     note := some "File cannot be calibrated",
                     last_modified := 5 }),
          WorkerResult.raised ⟨"DataReductionFailed", "no cal"⟩)) :=
  calibrate_failure_policy c7wstore (mkJoined c7file exObs) "PSRX" 5 200
    (Except.error ⟨"DataReductionFailed", "no cal"⟩) "PSRX_R" true
    ⟨"DataReductionFailed", "no cal"⟩ exLog c7caldb
    (by decide) (by decide) (by decide) (by decide)

/-! ### C6 — `update_caldb` -/

/-- Composing two by-id caldb updates collapses to one map when the
first keeps the primary key. -/
theorem updCaldbWhere_twice (s : Store) (cid : Nat) (g1 g2 : CaldbRow → CaldbRow)
    (hg1 : ∀ r, (g1 r).caldb_id = r.caldb_id) :
    updCaldbWhere (updCaldbWhere s cid g1) cid g2 =
      { s with caldbs :=
          s.caldbs.map (fun r => if r.caldb_id == cid then g2 (g1 r) else r) } := by
  rw [updCaldbWhere, updCaldbWhere]
  congr 1
  rw [List.map_map]
  refine List.map_congr_left (fun r _ => ?_)
  by_cases h : r.caldb_id = cid
  · simp [Function.comp, h, hg1]
  · simp [Function.comp, h]

/-- A caldb write does not change the calibrator-row query (it reads
only `files` and `obs`). -/
theorem newCalRows_updCaldbWhere (s : Store) (cid : Nat) (g : CaldbRow → CaldbRow) :
    newCalRows (updCaldbWhere s cid g) = newCalRows s := rfl

/-- Likewise for the new-entry count. -/
theorem numNewCal_updCaldbWhere (s : Store) (cid : Nat) (g : CaldbRow → CaldbRow)
    (lastupdated : Nat) :
    numNewCal (updCaldbWhere s cid g) lastupdated = numNewCal s lastupdated := rfl

/-- C6 counterexample: when the aggregation tool fails, the caldb row
is marked `failed` — but its prior state is NOT left untouched: the
failure-path update also overwrites `numentries` (5 → 1, the current
row count) and `note` (`'old'` → `'1 new entries added'`), and
`last_modified` was already bumped by the in-progress mark of the same
transaction. -/
theorem update_caldb_failure_overwrites_cex :
    update_caldb c6store "PSR1" false false 30 =
      Except.ok (⟨[exObs, c6obs], [c6file],
        [⟨1, "PSR1", "cp", "cn", 1, "failed", some "1 new entries added", 30⟩],
        [exLog]⟩, true) ∧
    c6caldb.numentries = 5 ∧ c6caldb.note = some "old" ∧
    c6caldb.last_modified = 10 := by
  decide

/-- C6 (amended): for a source with an existing CalibrationDatabase
row, `update_caldb` runs the external aggregation tool iff there are
qualifying calibrator files newer than the row's last update or
`force` is set; its result is always `reattempt_calibration` applied
after the caldb write, and that write sets — on tool failure —
`status='failed'` together with an overwritten `note` and
`numentries` (and `last_modified` from the in-progress mark; the
failure-path update itself misspells the column and writes no
timestamp), and on success (or when no rebuild was needed)
`status='ready'` with the same `note`, `numentries` and a fresh
timestamp. -/
theorem update_caldb_characterization
    (s : Store) (srcnm : String) (force pacOk : Bool) (now : Nat) (c : CaldbRow)
    (hdb : get_caldb s (canonName srcnm) = Except.ok (some c)) :
    update_caldb s srcnm force pacOk now =
      Except.ok
        (reattempt_calibration
          { s with caldbs := s.caldbs.map (fun r =>
              if r.caldb_id == c.caldb_id then
                (if (numNewCal s c.last_modified ≠ 0 || force) && !pacOk then
                  { r with status := "failed",
                           note := some (toString (numNewCal s c.last_modified) ++
                             " new entries added"),
                           numentries := (newCalRows s).length,
                           last_modified := now }
                else
                  { r with status := "ready",
                           note := some (toString (numNewCal s c.last_modified) ++
                             " new entries added"),
                           numentries := (newCalRows s).length,
                           last_modified := now })
              else r) }
          (canonName srcnm) now,
         (numNewCal s c.last_modified ≠ 0 || force)) := by
  rw [update_caldb, hdb]
  simp only [numNewCal_updCaldbWhere, newCalRows_updCaldbWhere]
  by_cases hp : ((numNewCal s c.last_modified ≠ 0 || force) && !pacOk) = true
  · simp only [hp, if_true]
    rw [updCaldbWhere_twice s c.caldb_id
      (fun r => { r with status := "updating", last_modified := now }) _
      (fun r => rfl)]
  · have hp2 : ((numNewCal s c.last_modified ≠ 0 || force) && !pacOk) = false := by
      simpa using hp
    simp only [hp2, Bool.false_eq_true, if_false]
    rw [updCaldbWhere_twice s c.caldb_id
      (fun r => { r with status := "updating", last_modified := now }) _
      (fun r => rfl)]

/-- C6 witness: the characterization at the counterexample store. -/
theorem update_caldb_characterization_witness :
    update_caldb c6store "PSR1" false false 30 =
      Except.ok
        (reattempt_calibration
          { c6store with caldbs := c6store.caldbs.map (fun r =>
              if r.caldb_id == c6caldb.caldb_id then
                (if (numNewCal c6store c6caldb.last_modified ≠ 0 || false) && !false then
                  { r with status := "failed",
                           note := some (toString (numNewCal c6store c6caldb.last_modified) ++
                             " new entries added"),
                           numentries := (newCalRows c6store).length,
                           last_modified := 30 }
                else
                  { r with status := "ready",
                           note := some (toString (numNewCal c6store c6caldb.last_modified) ++
                             " new entries added"),
                           numentries := (newCalRows c6store).length,
                           last_modified := 30 })
              else r) }
          (canonName "PSR1") 30,
         (numNewCal c6store c6caldb.last_modified ≠ 0 || false)) :=
  update_caldb_characterization c6store "PSR1" false false 30 c6caldb (by decide)

/-! ### C9 — priority patterns and the load stage -/

/-- The action loop threads its accumulated launch names through:
whatever it returns starts with the accumulator. -/
theorem mainTickActs_acc (prios : Option (List String)) (now : Nat) :
    ∀ (acts : List String) (s : Store) (nfree : Nat) (acc : List String),
      ∃ rest, (mainTickActs s prios acts nfree now acc).2 = acc ++ rest := by
  intro acts
  induction acts with
  | nil => intro s nfree acc; exact ⟨[], by simp [mainTickActs]⟩
  | cons a racts ih =>
    intro s nfree acc
    simp only [mainTickActs]
    obtain ⟨rest, hrest⟩ :=
      ih (dispatchRows s a ((todoOrNone s a prios).take nfree) now).1
        (nfree - ((todoOrNone s a prios).take nfree).length)
        (acc ++ (dispatchRows s a ((todoOrNone s a prios).take nfree) now).2)
    exact ⟨(dispatchRows s a ((todoOrNone s a prios).take nfree) now).2 ++ rest,
      by rw [hrest, List.append_assoc]⟩

/-- C9 counterexample: with priority patterns `["PSR%"]` configured, a
main-loop iteration still dispatches a `load` task for source
`"J9999"`, which matches no pattern: the `status='toload'` selection
(`get_toload`) takes no priority filter at all. -/
theorem load_dispatch_ignores_priority_cex :
    (mainTick c9store (some ["PSR%"]) 1 0 5).2 = ["load.file_id:1"] ∧
    (["PSR%"].any (fun p => likeMatch p "J9999")) = false ∧
    c9obs.sourcename = "J9999" ∧ c9file.status = "toload" := by
  decide

/-- C9 (amended): priority patterns are a strict allow-list for the
`get_todo`-driven actions (combine/correct/clean/calibrate): any
returned row's sourcename LIKE-matches some pattern.  The `load`
dispatch, however, ignores priorities entirely: the first launches of
every main-loop iteration are exactly the `get_toload` rows (sliced to
the free slots), an expression that does not depend on the priority
patterns at all. -/
theorem priority_filter_scope :
    (∀ (s : Store) (act : String) (ps : List String) (rows : List JoinedRow)
        (r : JoinedRow) (n : String),
      get_todo s act (some ps) = Except.ok rows → r ∈ rows →
      r.sourcename = some n → ps.any (fun p => likeMatch p n) = true) ∧
    (∀ (s : Store) (prios : Option (List String)) (numproc inflight now : Nat),
      numproc - inflight ≠ 0 →
      (mainTick s prios numproc inflight now).2.take
          ((get_toload s).take (numproc - inflight)).length =
        ((get_toload s).take (numproc - inflight)).map
          (fun r => "load.file_id:" ++ toString r.file.file_id)) := by
  constructor
  · intro s act ps rows r n hrows hr hn
    cases hact : ACTIONS act with
    | none => rw [get_todo, hact] at hrows; cases hrows
    | some t =>
      obtain ⟨tst, qc, wl⟩ := t
      rw [get_todo, hact] at hrows
      have hrows' : rows = (joinRows s).filter (todoClause tst qc (some ps)) :=
        (Except.ok.inj hrows).symm
      rw [hrows'] at hr
      have hcl := (List.mem_filter.mp hr).2
      rw [todoClause.eq_def] at hcl
      simp only [Bool.and_eq_true] at hcl
      have hprio := hcl.2
      rw [hn] at hprio
      exact hprio
  · intro s prios numproc inflight now hfree
    rw [mainTick]
    rw [if_neg hfree]
    obtain ⟨rest, hrest⟩ := mainTickActs_acc prios now
      ["calibrate", "clean", "correct", "combine"]
      (dispatchRows s "load" ((get_toload s).take (numproc - inflight)) now).1
      ((numproc - inflight) - ((get_toload s).take (numproc - inflight)).length)
      (dispatchRows s "load" ((get_toload s).take (numproc - inflight)) now).2
    rw [hrest, dispatchRows_snd]
    rw [← List.length_map ((get_toload s).take (numproc - inflight))
      (fun r => "load" ++ ".file_id:" ++ toString r.file.file_id)]
    rw [List.take_left]
    exact List.map_congr_left (fun r _ => by
      rw [show ("load" ++ ".file_id:" : String) = "load.file_id:" from by decide])

/-! ### C8 — what the operations may change on a File row -/

theorem rowStatusOnly_refl (f : FileRow) : rowStatusOnly f f :=
  ⟨⟨rfl, rfl, rfl, rfl, rfl, rfl⟩, rfl, rfl, rfl, rfl⟩

theorem rowStatusOnly_trans (f g h : FileRow) (h1 : rowStatusOnly f g)
    (h2 : rowStatusOnly g h) : rowStatusOnly f h := by
  obtain ⟨⟨a1, a2, a3, a4, a5, a6⟩, b1, b2, b3, b4⟩ := h1
  obtain ⟨⟨c1, c2, c3, c4, c5, c6⟩, d1, d2, d3, d4⟩ := h2
  exact ⟨⟨c1.trans a1, c2.trans a2, c3.trans a3, c4.trans a4, c5.trans a5,
    c6.trans a6⟩, d1.trans b1, d2.trans b2, d3.trans b3, d4.trans b4⟩

theorem statusStep_refl (s : Store) : statusStep s s :=
  ⟨fun _ h => h, fun f2 h _ => ⟨f2, h, rfl, rowStatusOnly_refl f2⟩⟩

theorem statusStep_trans (s s2 s3 : Store) (h12 : statusStep s s2)
    (h23 : statusStep s2 s3) : statusStep s s3 := by
  obtain ⟨hi12, hf12⟩ := h12
  obtain ⟨hi23, hf23⟩ := h23
  refine ⟨fun fid h => hi23 fid (hi12 fid h), ?_⟩
  intro f3 hf3 hid3
  obtain ⟨f2, hf2, hid2, hro23⟩ := hf23 f3 hf3 (hi12 _ hid3)
  obtain ⟨f, hf, hid, hro12⟩ := hf12 f2 hf2 (by rw [hid2]; exact hid3)
  exact ⟨f, hf, by rw [hid, hid2], rowStatusOnly_trans f f2 f3 hro12 hro23⟩

/-- `updateWhere` keeps the key list intact when the update keeps the
key. -/
theorem fileIds_updateWhere (s : Store) (fid : Nat) (g : FileRow → FileRow)
    (hg : ∀ f, (g f).file_id = f.file_id) :
    fileIds (updateWhere s fid g) = fileIds s := by
  rw [fileIds, updateWhere, List.map_map, fileIds]
  refine List.map_congr_left (fun f _ => ?_)
  by_cases h : f.file_id = fid <;> simp [Function.comp, h, hg]

theorem statusStep_updateWhere (s : Store) (fid : Nat) (g : FileRow → FileRow)
    (hg : ∀ f, (g f).file_id = f.file_id) (hro : ∀ f, rowStatusOnly f (g f)) :
    statusStep s (updateWhere s fid g) := by
  refine ⟨fun fid2 h => by rw [fileIds_updateWhere s fid g hg]; exact h, ?_⟩
  intro f2 hf2 _
  rw [updateWhere] at hf2
  rcases List.mem_map.mp hf2 with ⟨f, hf, rfl⟩
  by_cases h : f.file_id = fid
  · refine ⟨f, hf, ?_, ?_⟩
    · simp [h, hg]
    · simp only [h, beq_self_eq_true, if_true]
      exact hro f
  · refine ⟨f, hf, ?_, ?_⟩
    · simp [h]
    · have hbeq : (f.file_id == fid) = false := by simp [h]
      rw [hbeq]
      simp only [Bool.false_eq_true, if_false]
      exact rowStatusOnly_refl f

theorem statusStep_append (s : Store) (newRow : FileRow)
    (hfresh : newRow.file_id ∉ fileIds s) :
    statusStep s { s with files := s.files ++ [newRow] } := by
  constructor
  · intro fid h
    rw [fileIds] at h ⊢
    simp only [List.map_append, List.mem_append]
    exact Or.inl h
  · intro f2 hf2 hid
    simp only [List.mem_append, List.mem_singleton] at hf2
    rcases hf2 with h | h
    · exact ⟨f2, h, rfl, rowStatusOnly_refl f2⟩
    · rw [h] at hid
      exact absurd hid hfresh

/-- Every key in the store is at most the running maximum. -/
theorem le_foldr_max (l : List Nat) (x : Nat) (hx : x ∈ l) :
    x ≤ l.foldr Nat.max 0 := by
  induction l with
  | nil => cases hx
  | cons a l ih =>
    rcases List.mem_cons.mp hx with h | h
    · rw [h, List.foldr_cons]
      exact Nat.le_max_left _ _
    · exact Nat.le_trans (ih h) (by rw [List.foldr_cons]; exact Nat.le_max_right _ _)

/-- The auto-increment id is fresh. -/
theorem newFileId_not_mem (s : Store) : newFileId s ∉ fileIds s := by
  intro h
  rw [fileIds] at h
  have hle := le_foldr_max (s.files.map (fun f => f.file_id)) (newFileId s) h
  rw [newFileId] at hle
  exact absurd hle (by omega)

theorem statusStep_updateMany (s : Store) (fids : List Nat) (g : FileRow → FileRow)
    (hg : ∀ f, (g f).file_id = f.file_id) (hro : ∀ f, rowStatusOnly f (g f)) :
    statusStep s (updateMany s fids g) := by
  induction fids generalizing s with
  | nil => exact statusStep_refl s
  | cons fid rest ih =>
    have hstep : updateMany s (fid :: rest) g = updateMany (updateWhere s fid g) rest g := by
      simp [updateMany]
    rw [hstep]
    exact statusStep_trans _ _ _ (statusStep_updateWhere s fid g hg hro)
      (ih (updateWhere s fid g))

theorem statusStep_reattempt (s : Store) (nm : String) (now : Nat) :
    statusStep s (reattempt_calibration s nm now) := by
  rw [reattempt_calibration]
  exact statusStep_updateMany s _ _ (fun f => rfl)
    (fun f => ⟨⟨rfl, rfl, rfl, rfl, rfl, rfl⟩, rfl, rfl, rfl, rfl⟩)

theorem statusStep_dispatchRows (s : Store) (a : String) (rows : List JoinedRow)
    (now : Nat) : statusStep s (dispatchRows s a rows now).1 := by
  rw [dispatchRows_fst]
  exact statusStep_updateMany s _ _ (fun f => rfl)
    (fun f => ⟨⟨rfl, rfl, rfl, rfl, rfl, rfl⟩, rfl, rfl, rfl, rfl⟩)

theorem statusStep_load_combined (s : Store) (fr : FileRow) (now : Nat)
    (tr : Except CgError StageVals) :
    statusStep s (load_combined_file s fr now tr).1 := by
  simp only [load_combined_file]
  repeat' split
  all_goals first
    | exact statusStep_refl s
    | exact statusStep_updateWhere s fr.file_id _ (by exact fun f => rfl)
        (by exact fun f => ⟨⟨rfl, rfl, rfl, rfl, rfl, rfl⟩, rfl, rfl, rfl, rfl⟩)
    | exact statusStep_trans _ _ _
        (statusStep_updateWhere s fr.file_id _ (by exact fun f => rfl)
          (by exact fun f => ⟨⟨rfl, rfl, rfl, rfl, rfl, rfl⟩, rfl, rfl, rfl, rfl⟩))
        (statusStep_updateWhere _ fr.file_id _ (by exact fun f => rfl)
          (by exact fun f => ⟨⟨rfl, rfl, rfl, rfl, rfl, rfl⟩, rfl, rfl, rfl, rfl⟩))
    | exact statusStep_trans _ _ _
        (statusStep_trans _ _ _
          (statusStep_updateWhere s fr.file_id (runningValues now)
            (by exact fun f => rfl)
            (by exact fun f => ⟨⟨rfl, rfl, rfl, rfl, rfl, rfl⟩, rfl, rfl, rfl, rfl⟩))
          (statusStep_append _ _ (newFileId_not_mem _)))
        (statusStep_updateWhere _ fr.file_id _ (by exact fun f => rfl)
          (by exact fun f => ⟨⟨rfl, rfl, rfl, rfl, rfl, rfl⟩, rfl, rfl, rfl, rfl⟩))

/-- `statusStep` only reads the files table of its first argument, so
a store with the same files can replace it. -/
theorem statusStep_files_congr (s X Y : Store) (hf : X.files = s.files)
    (h : statusStep X Y) : statusStep s Y := by
  obtain ⟨hi, hfr⟩ := h
  constructor
  · intro fid hm
    apply hi
    rw [fileIds, hf]
    rw [fileIds] at hm
    exact hm
  · intro f2 h2 hid
    have hidX : f2.file_id ∈ fileIds X := by
      rw [fileIds, hf]
      rw [fileIds] at hid
      exact hid
    obtain ⟨f, hfm, he, hro⟩ := hfr f2 h2 hidX
    refine ⟨f, ?_, he, hro⟩
    rw [← hf]
    exact hfm

theorem statusStep_update_caldb (s : Store) (nm : String) (fo pk : Bool)
    (now : Nat) (st : Store × Bool)
    (h : update_caldb s nm fo pk now = Except.ok st) : statusStep s st.1 := by
  rw [update_caldb] at h
  split at h
  · cases h
  · rename_i ocaldb heq
    cases ocaldb with
    | none =>
      have hst := Except.ok.inj h
      rw [← hst]
      split
      · exact statusStep_files_congr s _ _ (by rfl) (statusStep_reattempt _ _ _)
      · exact statusStep_files_congr s _ _ (by rfl) (statusStep_reattempt _ _ _)
    | some c =>
      have hst := Except.ok.inj h
      rw [← hst]
      split
      · exact statusStep_files_congr s _ _ (by rfl) (statusStep_reattempt _ _ _)
      · exact statusStep_files_congr s _ _ (by rfl) (statusStep_reattempt _ _ _)

theorem statusStep_load_calibrated (s : Store) (row : JoinedRow) (mjdnow : ℚ)
    (now : Nat) (cr : Except CgError CalVals) (an : String) (pk : Bool) :
    statusStep s (load_calibrated_file s row mjdnow now cr an pk).1 := by
  have hone : ∀ (s' : Store) (fid : Nat) (g : FileRow → FileRow),
      (∀ f, (g f).file_id = f.file_id) →
      (∀ f, rowStatusOnly f (g f)) → statusStep s' (updateWhere s' fid g) :=
    fun s' fid g hg hro => statusStep_updateWhere s' fid g hg hro
  simp only [load_calibrated_file]
  repeat' split
  all_goals first
    | exact statusStep_refl s
    | exact hone s row.file.file_id _ (by exact fun f => rfl)
        (by exact fun f => ⟨⟨rfl, rfl, rfl, rfl, rfl, rfl⟩, rfl, rfl, rfl, rfl⟩)
    | exact statusStep_trans _ _ _
        (hone s row.file.file_id _ (by exact fun f => rfl)
          (by exact fun f => ⟨⟨rfl, rfl, rfl, rfl, rfl, rfl⟩, rfl, rfl, rfl, rfl⟩))
        (hone _ row.file.file_id _ (by exact fun f => rfl)
          (by exact fun f => ⟨⟨rfl, rfl, rfl, rfl, rfl, rfl⟩, rfl, rfl, rfl, rfl⟩))
    | exact statusStep_trans _ _ _
        (statusStep_trans _ _ _
          (hone s row.file.file_id (runningValues now) (by exact fun f => rfl)
            (by exact fun f => ⟨⟨rfl, rfl, rfl, rfl, rfl, rfl⟩, rfl, rfl, rfl, rfl⟩))
          (statusStep_append _ _ (newFileId_not_mem _)))
        (hone _ row.file.file_id _ (by exact fun f => rfl)
          (by exact fun f => ⟨⟨rfl, rfl, rfl, rfl, rfl, rfl⟩, rfl, rfl, rfl, rfl⟩))
    | (rename_i st heq
       exact statusStep_trans _ _ _
        (statusStep_trans _ _ _
          (statusStep_trans _ _ _
            (hone s row.file.file_id (runningValues now) (by exact fun f => rfl)
              (by exact fun f => ⟨⟨rfl, rfl, rfl, rfl, rfl, rfl⟩, rfl, rfl, rfl, rfl⟩))
            (statusStep_append _ _ (newFileId_not_mem _)))
          (hone _ row.file.file_id _ (by exact fun f => rfl)
            (by exact fun f => ⟨⟨rfl, rfl, rfl, rfl, rfl, rfl⟩, rfl, rfl, rfl, rfl⟩)))
        (statusStep_update_caldb _ an true pk now st heq))

theorem statusStep_load_to_toaster (s : Store) (fr : FileRow) (now : Nat)
    (lr : Except CgError Nat) :
    statusStep s (load_to_toaster s fr now lr).1 := by
  cases lr with
  | error e =>
    exact statusStep_updateWhere s fr.file_id _ (by exact fun f => rfl)
      (by exact fun f => ⟨⟨rfl, rfl, rfl, rfl, rfl, rfl⟩, rfl, rfl, rfl, rfl⟩)
  | ok rid =>
    exact statusStep_updateWhere s fr.file_id _ (by exact fun f => rfl)
      (by exact fun f => ⟨⟨rfl, rfl, rfl, rfl, rfl, rfl⟩, rfl, rfl, rfl, rfl⟩)

theorem statusStep_mainTickActs (prios : Option (List String)) (now : Nat) :
    ∀ (acts : List String) (s : Store) (nfree : Nat) (acc : List String),
      statusStep s (mainTickActs s prios acts nfree now acc).1 := by
  intro acts
  induction acts with
  | nil => intro s nfree acc; exact statusStep_refl s
  | cons a racts ih =>
    intro s nfree acc
    simp only [mainTickActs]
    exact statusStep_trans _ _ _
      (statusStep_dispatchRows s a ((todoOrNone s a prios).take nfree) now)
      (ih _ _ _)

theorem statusStep_mainTick (s : Store) (prios : Option (List String))
    (numproc inflight now : Nat) :
    statusStep s (mainTick s prios numproc inflight now).1 := by
  rw [mainTick]
  by_cases h : numproc - inflight = 0
  · rw [if_pos h]
    exact statusStep_refl s
  · rw [if_neg h]
    exact statusStep_trans _ _ _
      (statusStep_dispatchRows s "load" ((get_toload s).take (numproc - inflight)) now)
      (statusStep_mainTickActs prios now _ _ _ _)

theorem placeOnly_refl (f : FileRow) : placeOnly f f :=
  ⟨⟨rfl, rfl, rfl, rfl, rfl, rfl⟩, rfl, rfl, rfl, rfl⟩

/-- What `move_file` may change: only filepath, filename and
last-modified of the addressed row; the key set is unchanged. -/
theorem move_file_frame (s : Store) (fid : Nat) (dd : String)
    (dfn : Option String) (now : Nat) (s2 : Store)
    (h : move_file s fid dd dfn now = Except.ok s2) :
    fileIds s2 = fileIds s ∧
      ∀ f2 ∈ s2.files, ∃ f ∈ s.files, f.file_id = f2.file_id ∧ placeOnly f f2 := by
  rw [move_file] at h
  split at h
  · split at h
    · have hs := Except.ok.inj h
      rw [← hs]
      exact ⟨rfl, fun f2 hf2 => ⟨f2, hf2, rfl, placeOnly_refl f2⟩⟩
    · have hs := Except.ok.inj h
      rw [← hs]
      constructor
      · exact fileIds_updateWhere s fid _ (fun f => rfl)
      · intro f2 hf2
        rw [updateWhere] at hf2
        rcases List.mem_map.mp hf2 with ⟨f, hf, rfl⟩
        by_cases hid : f.file_id = fid
        · refine ⟨f, hf, by simp [hid], ?_⟩
          simp only [hid, beq_self_eq_true, if_true]
          exact ⟨⟨rfl, rfl, rfl, rfl, rfl, rfl⟩, rfl, rfl, rfl, rfl⟩
        · refine ⟨f, hf, by simp [hid], ?_⟩
          have hbeq : (f.file_id == fid) = false := by simp [hid]
          rw [hbeq]
          simp only [Bool.false_eq_true, if_false]
          exact placeOnly_refl f
  · cases h

/-- C8 counterexample: `move_file` updates the `filepath` of a File
row — and does so on a row already marked `processed` (exactly what
`load_corrected_file`'s post-transaction move loop does to the parent
rows of an observation).  So the stored artifact location does change
after creation, and a `processed` File is not immutable. -/
theorem move_file_changes_filepath_cex :
    move_file c8store 1 "newdir" none 5 =
      Except.ok { c8store with
        files := [{ c8file with filepath := "newdir", last_modified := 5 }] } ∧
    c8file.status = "processed" ∧ c8file.filepath = "olddir" ∧
    "olddir" ≠ "newdir" := by
  decide

/-- C8 (amended): every modelled operation of the controller touches
pre-existing File rows only through their status, note and
last-modified fields — except `move_file`, which touches only
filepath, filename and last-modified (and does so regardless of the
row's status, including `processed` rows); stage, checksum, size,
observation, provenance and creation time never change, and rows are
never deleted. -/
theorem file_update_frame :
    (∀ (s : Store) (nm : String) (now : Nat),
      statusStep s (reattempt_calibration s nm now)) ∧
    (∀ (s : Store) (a : String) (rows : List JoinedRow) (now : Nat),
      statusStep s (dispatchRows s a rows now).1) ∧
    (∀ (s : Store) (fr : FileRow) (now : Nat) (tr : Except CgError StageVals),
      statusStep s (load_combined_file s fr now tr).1) ∧
    (∀ (s : Store) (row : JoinedRow) (mjdnow : ℚ) (now : Nat)
        (cr : Except CgError CalVals) (an : String) (pk : Bool),
      statusStep s (load_calibrated_file s row mjdnow now cr an pk).1) ∧
    (∀ (s : Store) (fr : FileRow) (now : Nat) (lr : Except CgError Nat),
      statusStep s (load_to_toaster s fr now lr).1) ∧
    (∀ (s : Store) (nm : String) (fo pk : Bool) (now : Nat) (st : Store × Bool),
      update_caldb s nm fo pk now = Except.ok st → statusStep s st.1) ∧
    (∀ (s : Store) (prios : Option (List String)) (numproc inflight now : Nat),
      statusStep s (mainTick s prios numproc inflight now).1) ∧
    (∀ (s : Store) (fid : Nat) (dd : String) (dfn : Option String) (now : Nat)
        (s2 : Store),
      move_file s fid dd dfn now = Except.ok s2 →
        fileIds s2 = fileIds s ∧
        ∀ f2 ∈ s2.files, ∃ f ∈ s.files, f.file_id = f2.file_id ∧ placeOnly f f2) :=
  ⟨statusStep_reattempt, statusStep_dispatchRows, statusStep_load_combined,
   statusStep_load_calibrated, statusStep_load_to_toaster, statusStep_update_caldb,
   statusStep_mainTick, move_file_frame⟩

/-! ### C3 — `reattempt_calibration` -/

/-- With unique file ids, a store file's id is among the ids of the
`reattempt_calibration` selection exactly when the file qualifies. -/
theorem calfail_selected_iff (s : Store) (name : String) (f : FileRow)
    (hnodup : (s.files.map (fun f => f.file_id)).Nodup) (hf : f ∈ s.files) :
    f.file_id ∈ (((joinRows s).filter (calfailClause name)).map
        (fun r => r.file.file_id)) ↔
      calfailQualifies s name f = true := by
  constructor
  · intro hmem
    rcases List.mem_map.mp hmem with ⟨r, hr, hid⟩
    have hrj := (List.mem_filter.mp hr).1
    have hcl := (List.mem_filter.mp hr).2
    rw [calfailClause] at hcl
    simp only [Bool.and_eq_true, beq_iff_eq] at hcl
    obtain ⟨⟨⟨hst, hsg⟩, hqc⟩, hsn⟩ := hcl
    have hfm : r.file ∈ s.files := file_mem_of_mem_joinRows s r hrj
    have hrf : r.file = f :=
      List.inj_on_of_nodup_map hnodup hfm hf hid
    rcases obs_of_joined_sourcename s r name hrj hsn with ⟨o, ho, hoid, hon, _⟩
    rw [calfailQualifies]
    simp only [Bool.and_eq_true, beq_iff_eq]
    refine ⟨⟨⟨by rw [← hrf]; exact hst, by rw [← hrf]; exact hsg⟩,
      by rw [← hrf]; exact hqc⟩, ?_⟩
    refine List.any_eq_true.mpr ⟨o, ho, ?_⟩
    simp only [Bool.and_eq_true, beq_iff_eq]
    exact ⟨by rw [hoid, hrf], hon⟩
  · intro hq
    rw [calfailQualifies] at hq
    simp only [Bool.and_eq_true, beq_iff_eq] at hq
    obtain ⟨⟨⟨hst, hsg⟩, hqc⟩, hany⟩ := hq
    rcases List.any_eq_true.mp hany with ⟨o, ho, hoo⟩
    simp only [Bool.and_eq_true, beq_iff_eq] at hoo
    refine List.mem_map.mpr ⟨mkJoined f o, ?_, rfl⟩
    refine List.mem_filter.mpr ⟨mkJoined_mem_joinRows s f o hf ho hoo.1, ?_⟩
    rw [calfailClause]
    simp only [mkJoined, Bool.and_eq_true, beq_iff_eq]
    exact ⟨⟨⟨hst, hsg⟩, hqc⟩, congrArg some hoo.2⟩

/-- The map form of `reattempt_calibration`'s effect (unique file
ids). -/
theorem reattempt_calibration_files (s : Store) (srcnm : String) (now : Nat)
    (hnodup : (s.files.map (fun f => f.file_id)).Nodup) :
    (reattempt_calibration s srcnm now).files =
      s.files.map (fun f =>
        if calfailQualifies s (canonName srcnm) f then reattemptValues now f
        else f) := by
  rw [reattempt_calibration,
    updateMany_files s _ (reattemptValues now) (fun f => rfl) (fun f => rfl)]
  refine List.map_congr_left (fun f hf => ?_)
  by_cases hq : calfailQualifies s (canonName srcnm) f = true
  · have hmem := (calfail_selected_iff s (canonName srcnm) f hnodup hf).mpr hq
    have hcont : (((joinRows s).filter (calfailClause (canonName srcnm))).map
        (fun r => r.file.file_id)).contains f.file_id = true := by
      simpa using hmem
    rw [hcont, hq]
  · have hmem : f.file_id ∉ (((joinRows s).filter
        (calfailClause (canonName srcnm))).map (fun r => r.file.file_id)) :=
      fun h => hq ((calfail_selected_iff s (canonName srcnm) f hnodup hf).mp h)
    have hcont : (((joinRows s).filter (calfailClause (canonName srcnm))).map
        (fun r => r.file.file_id)).contains f.file_id = false := by
      simpa using hmem
    rw [hcont]
    have hq2 : calfailQualifies s (canonName srcnm) f = false := by
      simpa using hq
    rw [hq2]

/-- `reattempt_calibration` with an empty selection is a no-op (on any
store). -/
theorem reattempt_calibration_noop (s : Store) (srcnm : String) (now : Nat)
    (hempty : (joinRows s).filter (calfailClause (canonName srcnm)) = []) :
    reattempt_calibration s srcnm now = s := by
  rw [reattempt_calibration, hempty]
  rfl

/-- `reattempt_calibration` leaves the other tables alone. -/
theorem reattempt_calibration_others (s : Store) (srcnm : String) (now : Nat) :
    (reattempt_calibration s srcnm now).obs = s.obs ∧
    (reattempt_calibration s srcnm now).caldbs = s.caldbs ∧
    (reattempt_calibration s srcnm now).logs = s.logs := by
  rw [reattempt_calibration]
  exact updateMany_others s _ _

/-- C3: with unique file ids, `reattempt_calibration(source_name)`
sets `status='new'` (with the reattempt note and a fresh timestamp)
on exactly the File rows with `status='calfail', stage='cleaned',
qcpassed=true` and matching source name, leaves every other File row
— and the other tables — unchanged, and is idempotent: with no
qualifying rows it is a no-op, and running it twice equals running it
once. -/
theorem reattempt_calibration_resets_exactly
    (s : Store) (srcnm : String) (now now2 : Nat)
    (hnodup : (s.files.map (fun f => f.file_id)).Nodup) :
    (reattempt_calibration s srcnm now).files =
      s.files.map (fun f =>
        if calfailQualifies s (canonName srcnm) f then reattemptValues now f
        else f) ∧
    (reattempt_calibration s srcnm now).obs = s.obs ∧
    (reattempt_calibration s srcnm now).caldbs = s.caldbs ∧
    (reattempt_calibration s srcnm now).logs = s.logs ∧
    ((joinRows s).filter (calfailClause (canonName srcnm)) = [] →
      reattempt_calibration s srcnm now = s) ∧
    reattempt_calibration (reattempt_calibration s srcnm now) srcnm now2 =
      reattempt_calibration s srcnm now := by
  obtain ⟨ho, hc, hl⟩ := reattempt_calibration_others s srcnm now
  refine ⟨reattempt_calibration_files s srcnm now hnodup, ho, hc, hl,
    reattempt_calibration_noop s srcnm now, ?_⟩
  apply reattempt_calibration_noop
  refine List.filter_eq_nil_iff.mpr (fun r hr => ?_)
  intro hcl
  have hfm : r.file ∈ (reattempt_calibration s srcnm now).files :=
    file_mem_of_mem_joinRows _ r hr
  rw [reattempt_calibration_files s srcnm now hnodup] at hfm
  rcases List.mem_map.mp hfm with ⟨f, hf, heq⟩
  rw [calfailClause] at hcl
  simp only [Bool.and_eq_true, beq_iff_eq] at hcl
  obtain ⟨⟨⟨hst, hsg⟩, hqc⟩, hsn⟩ := hcl
  by_cases hq : calfailQualifies s (canonName srcnm) f = true
  · rw [if_pos hq] at heq
    rw [← heq] at hst
    simp [reattemptValues] at hst
  · rw [if_neg hq] at heq
    rcases obs_of_joined_sourcename _ r (canonName srcnm) hr hsn with
      ⟨o, ho2, hoid, hon, _⟩
    rw [ho] at ho2
    apply hq
    rw [calfailQualifies]
    simp only [Bool.and_eq_true, beq_iff_eq]
    refine ⟨⟨⟨by rw [heq]; exact hst, by rw [heq]; exact hsg⟩,
      by rw [heq]; exact hqc⟩, ?_⟩
    refine List.any_eq_true.mpr ⟨o, ho2, ?_⟩
    simp only [Bool.and_eq_true, beq_iff_eq]
    exact ⟨by rw [hoid, heq], hon⟩

/-- C3 witness: the reset theorem at the spec's example — three
qualifying rows reset, the `qcpassed=false` row untouched. -/
theorem reattempt_calibration_resets_exactly_witness :
    (reattempt_calibration c3store "PSR1" 11).files =
      c3store.files.map (fun f =>
        if calfailQualifies c3store (canonName "PSR1") f then reattemptValues 11 f
        else f) ∧
    (reattempt_calibration c3store "PSR1" 11).obs = c3store.obs ∧
    (reattempt_calibration c3store "PSR1" 11).caldbs = c3store.caldbs ∧
    (reattempt_calibration c3store "PSR1" 11).logs = c3store.logs ∧
    ((joinRows c3store).filter (calfailClause (canonName "PSR1")) = [] →
      reattempt_calibration c3store "PSR1" 11 = c3store) ∧
    reattempt_calibration (reattempt_calibration c3store "PSR1" 11) "PSR1" 12 =
      reattempt_calibration c3store "PSR1" 11 :=
  reattempt_calibration_resets_exactly c3store "PSR1" 11 12 (by decide)

/-! ### C2 — `can_calibrate` -/

theorem getFlag_setFlag (m : List (Nat × Bool)) (k : Nat) (b : Bool) (k2 : Nat) :
    getFlag (setFlag m k b) k2 = if k2 = k then some b else getFlag m k2 := by
  induction m with
  | nil =>
    by_cases h : k2 = k
    · simp [setFlag, getFlag, h]
    · have h2 : ¬ k = k2 := fun hh => h hh.symm
      simp [setFlag, getFlag, h, h2]
  | cons kb rest ih =>
    obtain ⟨k3, b3⟩ := kb
    by_cases h3 : k3 = k
    · subst h3
      by_cases h2 : k2 = k3
      · subst h2
        simp [setFlag, getFlag]
      · have h2b : ¬ k3 = k2 := fun hh => h2 hh.symm
        simp [setFlag, getFlag, h2, h2b]
    · by_cases h32 : k3 = k2
      · subst h32
        have hk2 : ¬ k3 = k := h3
        simp [setFlag, getFlag, h3, hk2, fun hh : k3 = k => h3 hh]
      · simp [setFlag, getFlag, h3, h32, ih]

/-- Keys of the association list after a write. -/
theorem keys_setFlag (m : List (Nat × Bool)) (k : Nat) (b : Bool) :
    (setFlag m k b).map Prod.fst =
      if k ∈ m.map Prod.fst then m.map Prod.fst else m.map Prod.fst ++ [k] := by
  induction m with
  | nil => simp [setFlag]
  | cons kb rest ih =>
    obtain ⟨k3, b3⟩ := kb
    by_cases h3 : k3 = k
    · rw [setFlag, if_pos h3]
      simp [h3]
    · rw [setFlag, if_neg h3]
      by_cases hk : k ∈ rest.map Prod.fst
      · simp only [List.map_cons, ih, hk, if_true]
        simp [List.mem_cons, hk]
      · simp only [List.map_cons, ih, hk, if_false]
        have h3b : ¬ k = k3 := fun hh => h3 hh.symm
        simp [List.mem_cons, h3b, hk]

theorem nodup_keys_setFlag (m : List (Nat × Bool)) (k : Nat) (b : Bool)
    (h : (m.map Prod.fst).Nodup) : ((setFlag m k b).map Prod.fst).Nodup := by
  rw [keys_setFlag]
  by_cases hk : k ∈ m.map Prod.fst
  · rw [if_pos hk]; exact h
  · rw [if_neg hk]
    rw [List.nodup_append]
    exact ⟨h, List.nodup_singleton k,
      fun a ha hb => hk (by rw [List.mem_singleton.mp hb] at ha; exact ha)⟩

theorem nodup_keys_foldl (rows : List FileRow) :
    ∀ m : List (Nat × Bool), (m.map Prod.fst).Nodup →
      ((rows.foldl stepFlag m).map Prod.fst).Nodup := by
  induction rows with
  | nil => intro m h; exact h
  | cons f rest ih =>
    intro m h
    rw [List.foldl_cons]
    exact ih _ (nodup_keys_setFlag m f.obs_id _ h)

theorem mem_of_getFlag (m : List (Nat × Bool)) (k : Nat) (b : Bool)
    (h : getFlag m k = some b) : (k, b) ∈ m := by
  induction m with
  | nil => cases h
  | cons kb rest ih =>
    obtain ⟨k3, b3⟩ := kb
    rw [getFlag] at h
    by_cases h3 : k3 = k
    · rw [if_pos h3] at h
      rw [h3] at *
      exact List.mem_cons.mpr (Or.inl (by rw [Option.some.inj h]))
    · rw [if_neg h3] at h
      exact List.mem_cons.mpr (Or.inr (ih h))

theorem getFlag_of_mem (m : List (Nat × Bool)) (k : Nat) (b : Bool)
    (hnd : (m.map Prod.fst).Nodup) (h : (k, b) ∈ m) : getFlag m k = some b := by
  induction m with
  | nil => cases h
  | cons kb rest ih =>
    obtain ⟨k3, b3⟩ := kb
    rw [List.map_cons] at hnd
    obtain ⟨hnd1, hnd2⟩ := List.nodup_cons.mp hnd
    rcases List.mem_cons.mp h with h1 | h1
    · cases h1
      rw [getFlag, if_pos rfl]
    · have hk3 : k3 ≠ k := by
        intro hh
        exact hnd1 (by rw [hh]; exact List.mem_map.mpr ⟨(k, b), h1, rfl⟩)
      rw [getFlag, if_neg hk3]
      exact ih hnd2 h1

/-- The grouping fold, characterised: a key's flag is present iff some
row carries it, and its value is the conjunction of `qcpassed ≠ false`
over the rows with that key (times the inherited value). -/
theorem getFlag_foldl (rows : List FileRow) :
    ∀ (m : List (Nat × Bool)) (k : Nat),
      getFlag (rows.foldl stepFlag m) k =
        if rows.filter (fun f => f.obs_id == k) = [] then getFlag m k
        else some ((getFlag m k).getD true &&
          (rows.filter (fun f => f.obs_id == k)).all qcNotFailed) := by
  induction rows with
  | nil => intro m k; simp
  | cons f rest ih =>
    intro m k
    rw [List.foldl_cons]
    rw [ih (stepFlag m f) k]
    have hset := getFlag_setFlag m f.obs_id
      ((getFlag m f.obs_id).getD true && qcNotFailed f) k
    by_cases hk : f.obs_id = k
    · have hfs : (f :: rest).filter (fun f2 => f2.obs_id == k) =
          f :: rest.filter (fun f2 => f2.obs_id == k) := by
        simp [List.filter_cons, hk]
      rw [hfs]
      have hg : getFlag (stepFlag m f) k =
          some ((getFlag m k).getD true && qcNotFailed f) := by
        rw [stepFlag, hset, if_pos hk.symm, hk]
      by_cases hr : rest.filter (fun f2 => f2.obs_id == k) = []
      · rw [if_pos hr, hg]
        simp [hr]
      · rw [if_neg hr, hg]
        have : (f :: rest.filter (fun f2 => f2.obs_id == k)) ≠ [] := by simp
        rw [if_neg this]
        simp [List.all_cons, Bool.and_assoc]
    · have hfs : (f :: rest).filter (fun f2 => f2.obs_id == k) =
          rest.filter (fun f2 => f2.obs_id == k) := by
        simp [List.filter_cons, hk]
      rw [hfs]
      have hg : getFlag (stepFlag m f) k = getFlag m k := by
        rw [stepFlag, hset, if_neg (fun hh => hk hh.symm)]
      rw [hg]

/-- `any` over the grouped flags, characterised on the plain row list:
some key occurs among the rows and every row carrying it passes
(`qcpassed != False`). -/
theorem anyFlag_iff (rows : List FileRow) :
    (obsFlags rows).any (fun kb => kb.2) = true ↔
      ∃ k : Nat, rows.filter (fun f => f.obs_id == k) ≠ [] ∧
        (rows.filter (fun f => f.obs_id == k)).all qcNotFailed = true := by
  constructor
  · intro h
    obtain ⟨⟨k, b⟩, hmem, hb⟩ := List.any_eq_true.mp h
    have hnd : ((obsFlags rows).map Prod.fst).Nodup :=
      nodup_keys_foldl rows [] (by simp)
    have hget : getFlag (obsFlags rows) k = some b :=
      getFlag_of_mem _ k b hnd hmem
    have hchar := getFlag_foldl rows [] k
    rw [obsFlags] at hget
    rw [hchar] at hget
    by_cases hf : rows.filter (fun f => f.obs_id == k) = []
    · rw [if_pos hf] at hget
      simp [getFlag] at hget
    · rw [if_neg hf] at hget
      simp only [getFlag, Option.getD_none, Bool.true_and] at hget
      refine ⟨k, hf, ?_⟩
      rw [Option.some.inj hget]
      simpa using hb
  · rintro ⟨k, hne, hall⟩
    have hget : getFlag (obsFlags rows) k = some true := by
      rw [obsFlags, getFlag_foldl rows [] k, if_neg hne]
      simp [getFlag, hall]
    have hmem := mem_of_getFlag _ k true hget
    exact List.any_eq_true.mpr ⟨(k, true), hmem, rfl⟩

/-- Membership in `can_calibrate`'s candidate rows: a file of the store
whose observation satisfies the calibrator-search clause. -/
theorem mem_calCandidates (s : Store) (p : ObsRow) (f : FileRow) :
    f ∈ calCandidates s p ↔
      f ∈ s.files ∧ ∃ o ∈ s.obs, o.obs_id = f.obs_id ∧
        calSearchClause p o = true := by
  rw [calCandidates]
  simp only [List.mem_flatMap, List.mem_map, List.mem_filter, obsMatches,
    beq_iff_eq]
  constructor
  · rintro ⟨f2, hf2, o, ⟨⟨ho, hid⟩, hcl⟩, rfl⟩
    exact ⟨hf2, o, ho, hid, hcl⟩
  · rintro ⟨hf, o, ho, hid, hcl⟩
    exact ⟨f, hf, o, ⟨⟨ho, hid⟩, hcl⟩, rfl⟩

/-- The calibrator-search WHERE clause, as propositions. -/
theorem calSearchClause_iff (p o : ObsRow) :
    calSearchClause p o = true ↔
      o.obstype = "cal" ∧ o.sourcename = p.sourcename ++ "_R" ∧
      (o.rcvr = p.rcvr ∨ o.rcvr = none) ∧
      p.start_mjd - TWOHRS_IN_DAYS ≤ o.start_mjd ∧
      o.start_mjd ≤ p.start_mjd + TWOHRS_IN_DAYS := by
  rw [calSearchClause]
  simp only [Bool.and_eq_true, Bool.or_eq_true, beq_iff_eq,
    ratSubLe_iff, ratLeAdd_iff]
  tauto

/-- C2 counterexample: at MJD 200 the pulsar observation `exObs`
(start MJD 100) is far older than 7 days, and the store holds a
calibrator observation matching every search criterion but owning no
File; the claim's predicate (every File of some candidate passes,
vacuously true here) holds, yet `can_calibrate` returns False, because
the SQL join produces no rows for a file-less observation and
`any({})` is False. -/
theorem can_calibrate_empty_candidate_cex :
    can_calibrate c2store 200 1 = Except.ok false ∧
      claimCalPredB c2store exObs = true ∧
      get_obs c2store 1 = some exObs ∧
      exObs.obstype = "pulsar" ∧
      ratSubLt 200 exObs.start_mjd 7 = false := by
  decide

/-- C2 (amended): `can_calibrate` raises `InputError` for a non-pulsar
observation; returns True unconditionally when the pulsar observation
is younger than 7 days; and for an older pulsar observation returns
True iff there is a candidate calibrator observation — obstype
`'cal'`, sourcename the pulsar's plus `"_R"`, receiver equal to the
pulsar's or NULL, start MJD within ±2 hours — that has at least one
File and all of whose Files have `qcpassed != False` (NULL passes).  A
candidate observation with no Files does not make it return True. -/
theorem can_calibrate_characterization :
    (∀ (s : Store) (mjdnow : ℚ) (obs_id : Nat) (o : ObsRow),
      get_obs s obs_id = some o → o.obstype ≠ "pulsar" →
      can_calibrate s mjdnow obs_id = Except.error "InputError") ∧
    (∀ (s : Store) (mjdnow : ℚ) (obs_id : Nat) (o : ObsRow),
      get_obs s obs_id = some o → o.obstype = "pulsar" →
      mjdnow - o.start_mjd < 7 →
      can_calibrate s mjdnow obs_id = Except.ok true) ∧
    (∀ (s : Store) (mjdnow : ℚ) (obs_id : Nat) (o : ObsRow),
      get_obs s obs_id = some o → o.obstype = "pulsar" →
      ¬ (mjdnow - o.start_mjd < 7) →
      (can_calibrate s mjdnow obs_id = Except.ok true ↔
        ∃ cal ∈ s.obs, cal.obstype = "cal" ∧
          cal.sourcename = o.sourcename ++ "_R" ∧
          (cal.rcvr = o.rcvr ∨ cal.rcvr = none) ∧
          o.start_mjd - TWOHRS_IN_DAYS ≤ cal.start_mjd ∧
          cal.start_mjd ≤ o.start_mjd + TWOHRS_IN_DAYS ∧
          (∃ f ∈ s.files, f.obs_id = cal.obs_id) ∧
          (∀ f ∈ s.files, f.obs_id = cal.obs_id →
            f.qcpassed ≠ some false))) := by
  refine ⟨?_, ?_, ?_⟩
  · intro s mjdnow obs_id o hget hobs
    simp only [can_calibrate, hget]
    rw [if_pos hobs]
  · intro s mjdnow obs_id o hget hobs hyoung
    simp only [can_calibrate, hget]
    rw [if_neg (fun hc => hc hobs),
      if_pos ((ratSubLt_iff mjdnow o.start_mjd 7).mpr hyoung)]
  · intro s mjdnow obs_id o hget hobs hold
    simp only [can_calibrate, hget]
    rw [if_neg (fun hc => hc hobs)]
    have hrb : ratSubLt mjdnow o.start_mjd 7 = false := by
      cases hb : ratSubLt mjdnow o.start_mjd 7
      · rfl
      · exact absurd ((ratSubLt_iff mjdnow o.start_mjd 7).mp hb) hold
    rw [hrb]
    simp only [Bool.false_eq_true, if_false]
    constructor
    · intro h
      have hany : (obsFlags (calCandidates s o)).any (fun kb => kb.2) = true :=
        Except.ok.inj h
      obtain ⟨k, hne, hall⟩ := (anyFlag_iff (calCandidates s o)).mp hany
      obtain ⟨f0, hf0⟩ := List.exists_mem_of_ne_nil _ hne
      obtain ⟨hf0c, hf0k⟩ := List.mem_filter.mp hf0
      have hf0k2 : f0.obs_id = k := by simpa using hf0k
      obtain ⟨hf0s, cal, hcal, hcid, hcl⟩ :=
        (mem_calCandidates s o f0).mp hf0c
      obtain ⟨h1, h2, h3, h4, h5⟩ := (calSearchClause_iff o cal).mp hcl
      refine ⟨cal, hcal, h1, h2, h3, h4, h5,
        ⟨f0, hf0s, hcid.symm⟩, ?_⟩
      intro f hf hfid
      have hfc : f ∈ calCandidates s o :=
        (mem_calCandidates s o f).mpr ⟨hf, cal, hcal, hfid.symm, hcl⟩
      have hfk : f.obs_id = k := by rw [hfid, ← hf0k2, ← hcid]
      have hfm : f ∈ (calCandidates s o).filter (fun f2 => f2.obs_id == k) :=
        List.mem_filter.mpr ⟨hfc, by simpa using hfk⟩
      have := List.all_eq_true.mp hall f hfm
      simpa [qcNotFailed] using this
    · rintro ⟨cal, hcal, h1, h2, h3, h4, h5, ⟨f0, hf0s, hid0⟩, hallp⟩
      have hcl : calSearchClause o cal = true :=
        (calSearchClause_iff o cal).mpr ⟨h1, h2, h3, h4, h5⟩
      have hf0c : f0 ∈ calCandidates s o :=
        (mem_calCandidates s o f0).mpr ⟨hf0s, cal, hcal, hid0.symm, hcl⟩
      have hany : (obsFlags (calCandidates s o)).any (fun kb => kb.2) = true := by
        refine (anyFlag_iff (calCandidates s o)).mpr ⟨cal.obs_id, ?_, ?_⟩
        · exact List.ne_nil_of_mem
            (List.mem_filter.mpr ⟨hf0c, by simpa using hid0⟩)
        · refine List.all_eq_true.mpr ?_
          intro f hfm
          obtain ⟨hfc, hfk⟩ := List.mem_filter.mp hfm
          obtain ⟨hfs, _⟩ := (mem_calCandidates s o f).mp hfc
          have := hallp f hfs (by simpa using hfk)
          simpa [qcNotFailed] using this
      rw [hany]

end MeerGuard
